import Mathlib

/-!
The package fwojciec/email : message validation, builder and send.

A shallow embedding of `email.go` and `ses.go`.

* A Go `string` is a Lean `String`; the regular-expression engine reads it rune by
  rune, which is `String.toList`.  (A byte that is not valid UTF-8 reaches the engine
  as the rune U+FFFD, which is a `Char` outside every class used here.)
* A Go `error` is `Option GoError`: `none` is `nil`, `some e` is a non-nil error `e`.
* A Go `[]string` is a `List String` (a nil slice and an empty slice both have length 0).
* The `sender Sender` field is an interface value: `none` is the nil interface,
  `some s` a transport `s`.  What `s.Send(m)` does is given by a method table
  (`SenderImpl`) acting on an explicit world state.
* The provider client behind the default transport is given in the same way by a method
  table (`SESApiImpl`); the request it receives is embedded by value.
* The validator is embedded twice: `validateMessage` gives its result, and
  `validateMessageRun` the call with its outcome (return or panic) and the state it
  leaves, where `regexp.MustCompile` reads the text of the pattern.
-/

namespace Email

/-! ## The regular expressions used by `emailValid` -/

/-- Abstract syntax of the regular expressions of Go's `regexp/syntax` that `emailValid`
needs.  `noMatch` only arises as a derivative. -/
inductive Regex where
  | noMatch : Regex
  | emptyMatch : Regex
  | charClass (p : Char → Bool) : Regex
  | concat (a b : Regex) : Regex
  | alternate (a b : Regex) : Regex
  | star (a : Regex) : Regex

namespace Regex

/-- A literal rune, such as `@` or `\.`. -/
def literal (c : Char) : Regex := charClass (fun x => x == c)

/-- The operator `a+`. -/
def plus (a : Regex) : Regex := concat a (star a)

/-- The operator `(?:a)?`. -/
def quest (a : Regex) : Regex := alternate a emptyMatch

/-- The counted repetition `a{0,n}`, as nested optional copies `(?:a(?:a(?:a)?)?)?`. -/
def repeatUpTo (a : Regex) : Nat → Regex
  | 0 => emptyMatch
  | n + 1 => quest (concat a (repeatUpTo a n))

/-- Whether the expression matches the empty text. -/
def nullable : Regex → Bool
  | noMatch => false
  | emptyMatch => true
  | charClass _ => false
  | concat a b => nullable a && nullable b
  | alternate a b => nullable a || nullable b
  | star _ => true

/-- The expression matching what may follow the rune `c` in a match. -/
def deriv (c : Char) : Regex → Regex
  | noMatch => noMatch
  | emptyMatch => noMatch
  | charClass p => if p c then emptyMatch else noMatch
  | concat a b =>
      if nullable a then alternate (concat (deriv c a) b) (deriv c b)
      else concat (deriv c a) b
  | alternate a b => alternate (deriv c a) (deriv c b)
  | star a => concat (deriv c a) (star a)

/-- Whether the whole rune sequence is matched by the expression (the match is anchored
at both ends, as with `^` ... `$` and no multi-line flag). -/
def matchRunes (r : Regex) : List Char → Bool
  | [] => nullable r
  | c :: cs => matchRunes (deriv c r) cs

/-- The method `(*Regexp).MatchString` for an expression anchored with `^` and `$`. -/
def MatchString (re : Regex) (s : String) : Bool := matchRunes re s.toList

end Regex

/-! ## `emailValid` -/

/-- The class `[a-zA-Z0-9]`. -/
def alnumClass (c : Char) : Bool :=
  ('a' ≤ c && c ≤ 'z') || ('A' ≤ c && c ≤ 'Z') || ('0' ≤ c && c ≤ '9')

/-- The class `[a-zA-Z0-9-]`. -/
def labelClass (c : Char) : Bool :=
  ('a' ≤ c && c ≤ 'z') || ('A' ≤ c && c ≤ 'Z') || ('0' ≤ c && c ≤ '9') || c == '-'

/-- The class of the local part: letters, digits and the punctuation
. ! # $ % & apostrophe * + / = ? ^ _ backquote opening-brace | closing-brace ~ -
(apostrophe, backquote and the two braces are written by their code points 39, 96, 123, 125). -/
def localClass (c : Char) : Bool :=
  ('a' ≤ c && c ≤ 'z') || ('A' ≤ c && c ≤ 'Z') || ('0' ≤ c && c ≤ '9') ||
  c == '.' || c == '!' || c == '#' || c == '$' || c == '%' || c == '&' || c == Char.ofNat 39 ||
  c == '*' || c == '+' || c == '/' || c == '=' || c == '?' || c == '^' || c == '_' ||
  c == Char.ofNat 96 || c == Char.ofNat 123 || c == '|' || c == Char.ofNat 125 ||
  c == '~' || c == '-'

/-- The sub-expression `[a-zA-Z0-9](?:[a-zA-Z0-9-]{0,61}[a-zA-Z0-9])?`: one domain label. -/
def labelRegex : Regex :=
  .concat (.charClass alnumClass)
    (.quest (.concat (.repeatUpTo (.charClass labelClass) 61) (.charClass alnumClass)))

/-- The expression compiled in `emailValid`:
the local-part class repeated one or more times, the rune @, a label, then any number of
groups made of a dot and a label, anchored by ^ and $. -/
def emailRegex : Regex :=
  .concat (.plus (.charClass localClass))
    (.concat (.literal '@')
      (.concat labelRegex (.star (.concat (.literal '.') labelRegex))))

/-- The function `emailValid` of email.go. -/
def emailValid (e : String) : Bool := emailRegex.MatchString e


/-! ## Errors, messages and transports -/

/-- A non-nil Go `error`, identified by the text its `Error()` method reports. -/
structure GoError where
  text : String
  deriving DecidableEq, Repr

/-- The error made by `fmt.Errorf` once its format has been expanded to `text`. -/
def Errorf (text : String) : GoError := ⟨text⟩

/-- The struct `Message`; `sender` is `none` for the nil interface value. -/
structure Message (σ : Type) where
  sender : Option σ
  From : String
  To : List String
  Cc : List String
  Bcc : List String
  Subject : String
  TextBody : String
  HtmlBody : String
  deriving DecidableEq, Repr

/-- The method set of the interface `Sender` for transports of type `σ`: `Send` receives
the transport, the message behind the pointer and the state of the world, and returns
its error together with the message and the world as it leaves them. -/
structure SenderImpl (σ W : Type) where
  Send : σ → Message σ → W → Option GoError × Message σ × W

/-- A transport instrumented to record every call it receives (the transport and the
message it was called with), as the generated mocks of the tests do. -/
def SenderImpl.recording {σ W : Type} (impl : SenderImpl σ W) :
    SenderImpl σ (W × List (σ × Message σ)) where
  Send := fun s m st =>
    let r := impl.Send s m st.1
    (r.1, r.2.1, (r.2.2, st.2 ++ [(s, m)]))

/-- How a Go call ends: it returns a value, or it panics. -/
inductive Result (α : Type) where
  | ret (a : α) : Result α
  | panic : Result α
  deriving DecidableEq, Repr

/-- The loop `for _, t := range m.To` of `validateMessage`. -/
def validateTo : List String → Option GoError
  | [] => none
  | t :: ts => if !emailValid t then some (Errorf "invalid to email") else validateTo ts

/-- The function `validateMessage` of email.go. -/
def validateMessage {σ : Type} (m : Message σ) : Option GoError :=
  if m.sender.isNone then some (Errorf "sender is not defined")
  else if m.From == "" then some (Errorf "from email is required")
  else if !emailValid m.From then some (Errorf "invalid from email")
  else if m.To.length < 1 then some (Errorf "at least one to email is required")
  else validateTo m.To

/-- The method `(*Message).Send` of email.go.  The result holds the returned error, the
message behind the receiver and the world after the call; calling `Send` on a nil
`sender` interface would panic. -/
def Message.Send {σ W : Type} (impl : SenderImpl σ W) (m : Message σ) (w : W) :
    Result (Option GoError × Message σ × W) :=
  match validateMessage m with
  | some err => .ret (some (Errorf ("message validation failed: " ++ err.text)), m, w)
  | none =>
    match m.sender with
    | some s => .ret (impl.Send s m w)
    | none => .panic

/-! ## The builder -/

/-- The loop `for _, opt := range opts { opt(m) }` of `NewWithSender`. -/
def applyOpts {σ : Type} (m : Message σ) : List (Message σ → Message σ) → Message σ
  | [] => m
  | opt :: opts => applyOpts (opt m) opts

/-- The function `NewWithSender` of email.go; `s` may be the nil interface. -/
def NewWithSender {σ : Type} (s : Option σ) (opts : List (Message σ → Message σ)) :
    Message σ :=
  applyOpts
    { sender := s, From := "", To := [], Cc := [], Bcc := [], Subject := "",
      TextBody := "", HtmlBody := "" } opts

/-- The option `From(from)`. -/
def From {σ : Type} (frm : String) : Message σ → Message σ :=
  fun m => { m with From := frm }

/-- The option `To(to...)`. -/
def To {σ : Type} (to_ : List String) : Message σ → Message σ :=
  fun m => { m with To := to_ }

/-- The option `Cc(cc...)`. -/
def Cc {σ : Type} (cc : List String) : Message σ → Message σ :=
  fun m => { m with Cc := cc }

/-- The option `Bcc(bcc...)`. -/
def Bcc {σ : Type} (bcc : List String) : Message σ → Message σ :=
  fun m => { m with Bcc := bcc }

/-- The option `Subject(subject)`. -/
def Subject {σ : Type} (subject : String) : Message σ → Message σ :=
  fun m => { m with Subject := subject }

/-- The option `TextBody(tBody)`. -/
def TextBody {σ : Type} (tBody : String) : Message σ → Message σ :=
  fun m => { m with TextBody := tBody }

/-- The option `HtmlBody(hBody)`. -/
def HtmlBody {σ : Type} (hBody : String) : Message σ → Message σ :=
  fun m => { m with HtmlBody := hBody }

/-! ## The email-syntax rule in the words of the specification -/

/-- The local part of the specification: one or more characters of the local-part class. -/
def SpecLocalPart (l : List Char) : Prop :=
  1 ≤ l.length ∧ ∀ c ∈ l, localClass c = true

/-- A label of the specification: 1 to 63 characters from a-z A-Z 0-9 and the hyphen,
neither starting nor ending with a hyphen. -/
def SpecLabel (l : List Char) : Prop :=
  1 ≤ l.length ∧ l.length ≤ 63 ∧ (∀ c ∈ l, labelClass c = true) ∧
    l.head? ≠ some '-' ∧ l.getLast? ≠ some '-'

/-- A domain of the specification: one or more labels separated by single dots. -/
def SpecDomain (d : List Char) : Prop :=
  ∃ labels : List (List Char),
    labels ≠ [] ∧ (∀ l ∈ labels, SpecLabel l) ∧ d = List.intercalate ['.'] labels

/-- The form local@domain of the specification, for the whole of the string. -/
def SpecEmailForm (e : String) : Prop :=
  ∃ loc dom : List Char, e.toList = loc ++ '@' :: dom ∧ SpecLocalPart loc ∧ SpecDomain dom

/-! ## Options as data, and sample values -/

/-- A call of one of the seven option constructors, with its argument. -/
inductive OptCall where
  | From (frm : String) : OptCall
  | To (to_ : List String) : OptCall
  | Cc (cc : List String) : OptCall
  | Bcc (bcc : List String) : OptCall
  | Subject (subject : String) : OptCall
  | TextBody (tBody : String) : OptCall
  | HtmlBody (hBody : String) : OptCall

namespace OptCall

/-- The option function that the call evaluates to. -/
def toOpt {σ : Type} : OptCall → Message σ → Message σ
  | From frm => Email.From frm
  | To to_ => Email.To to_
  | Cc cc => Email.Cc cc
  | Bcc bcc => Email.Bcc bcc
  | Subject subject => Email.Subject subject
  | TextBody tBody => Email.TextBody tBody
  | HtmlBody hBody => Email.HtmlBody hBody

/-- The argument of a call of `From`. -/
def fromArg : OptCall → Option String
  | From frm => some frm
  | _ => none

/-- The argument of a call of `To`. -/
def toArg : OptCall → Option (List String)
  | To to_ => some to_
  | _ => none

/-- The argument of a call of `Cc`. -/
def ccArg : OptCall → Option (List String)
  | Cc cc => some cc
  | _ => none

/-- The argument of a call of `Bcc`. -/
def bccArg : OptCall → Option (List String)
  | Bcc bcc => some bcc
  | _ => none

/-- The argument of a call of `Subject`. -/
def subjectArg : OptCall → Option String
  | Subject subject => some subject
  | _ => none

/-- The argument of a call of `TextBody`. -/
def textBodyArg : OptCall → Option String
  | TextBody tBody => some tBody
  | _ => none

/-- The argument of a call of `HtmlBody`. -/
def htmlBodyArg : OptCall → Option String
  | HtmlBody hBody => some hBody
  | _ => none

end OptCall

/-- The value given by the last call in `calls` that has an argument under `arg`,
and `zero` when there is none. -/
def lastArg {α : Type} (arg : OptCall → Option α) (zero : α) (calls : List OptCall) : α :=
  ((calls.filterMap arg).getLast?).getD zero

/-- A transport for examples: the value of the transport is the error its `Send`
returns, and the world counts the calls made. -/
def stubImpl : SenderImpl (Option GoError) Nat where
  Send := fun s m n => (s, m, n + 1)

/-- The zero-valued `Message{}`. -/
def zeroMessage : Message (Option GoError) :=
  { sender := none, From := "", To := [], Cc := [], Bcc := [], Subject := "",
    TextBody := "", HtmlBody := "" }

/-- The message of the test case "minimum requirements met", over a transport that
returns nil. -/
def minimalMessage : Message (Option GoError) :=
  NewWithSender (some none) [From "from@email.com", To ["to1@email.com"]]

/-- The message of the test case "minimum requirements met" with a second recipient,
"wrong", after the valid one. -/
def mixedRecipientsMessage : Message (Option GoError) :=
  NewWithSender (some none) [From "from@email.com", To ["to1@email.com", "wrong"]]

/-- The message of the test case "no from email": a transport and a recipient, no sender
address. -/
def noFromMessage : Message (Option GoError) :=
  NewWithSender (some none) [To ["to1@email.com"]]

/-- The message of the test case "from email invalid". -/
def wrongFromMessage : Message (Option GoError) :=
  NewWithSender (some none) [From "wrong", To ["to1@email.com"]]

/-- The message of the test case "no to emails". -/
def noToMessage : Message (Option GoError) :=
  NewWithSender (some none) [From "from@email.com"]

/-- The message of the test case "to email invalid". -/
def wrongToMessage : Message (Option GoError) :=
  NewWithSender (some none) [From "from@email.com", To ["wrong"]]

/-- Whether `text` ends with `suffix`. -/
def EndsWith (text suffix : String) : Prop := suffix.toList <:+ text.toList

instance (text suffix : String) : Decidable (EndsWith text suffix) :=
  inferInstanceAs (Decidable (suffix.toList <:+ text.toList))

/-! ## The provider request and the default transport (ses.go)

The request types belong to the provider's SDK; the fields that the package sets are
kept.  A pointer is an `Option` (`none` is nil), and a pointer to a string is given by
the string it points to.  A slice of pointers is `none` when nil, `some` of its elements
otherwise. -/

/-- The SDK type `ses.Content`. -/
structure ses.Content where
  Charset : Option String
  Data : Option String
  deriving DecidableEq, Repr

/-- The SDK type `ses.Body`. -/
structure ses.Body where
  Html : Option ses.Content
  Text : Option ses.Content
  deriving DecidableEq, Repr

/-- The SDK type `ses.Message`. -/
structure ses.Message where
  Body : Option ses.Body
  Subject : Option ses.Content
  deriving DecidableEq, Repr

/-- The SDK type `ses.Destination`. -/
structure ses.Destination where
  BccAddresses : Option (List (Option String))
  CcAddresses : Option (List (Option String))
  ToAddresses : Option (List (Option String))
  deriving DecidableEq, Repr

/-- The SDK type `ses.SendEmailInput`; its other fields are never set by the package. -/
structure ses.SendEmailInput where
  Destination : Option ses.Destination
  Message : Option ses.Message
  Source : Option String
  deriving DecidableEq, Repr

/-- The SDK type `ses.SendEmailOutput`. -/
structure ses.SendEmailOutput where
  MessageId : Option String
  deriving DecidableEq, Repr

/-- The assignment `i.Destination.CcAddresses = v`. -/
def ses.SendEmailInput.setCcAddresses (i : ses.SendEmailInput)
    (v : Option (List (Option String))) : ses.SendEmailInput :=
  { i with Destination := i.Destination.map fun d => { d with CcAddresses := v } }

/-- The assignment `i.Destination.BccAddresses = v`. -/
def ses.SendEmailInput.setBccAddresses (i : ses.SendEmailInput)
    (v : Option (List (Option String))) : ses.SendEmailInput :=
  { i with Destination := i.Destination.map fun d => { d with BccAddresses := v } }

/-- The assignment `i.Message.Subject = v`. -/
def ses.SendEmailInput.setSubject (i : ses.SendEmailInput) (v : Option ses.Content) :
    ses.SendEmailInput :=
  { i with Message := i.Message.map fun msg => { msg with Subject := v } }

/-- The assignment `i.Message.Body.Text = v`. -/
def ses.SendEmailInput.setBodyText (i : ses.SendEmailInput) (v : Option ses.Content) :
    ses.SendEmailInput :=
  { i with Message := i.Message.map fun msg =>
      { msg with Body := msg.Body.map fun b => { b with Text := v } } }

/-- The assignment `i.Message.Body.Html = v`. -/
def ses.SendEmailInput.setBodyHtml (i : ses.SendEmailInput) (v : Option ses.Content) :
    ses.SendEmailInput :=
  { i with Message := i.Message.map fun msg =>
      { msg with Body := msg.Body.map fun b => { b with Html := v } } }

/-- The function `slicetoPtrSlice` of ses.go: a slice of `len(s)` nil pointers is made,
then `result[i] = &s[i]` runs for every index `i` of `s` (the index is in range, the
default of `getD` is never used). -/
def slicetoPtrSlice (s : List String) : List (Option String) :=
  (List.range s.length).foldl (fun result i => result.set i (some (s.getD i "")))
    (List.replicate s.length none)

/-- The function `messagetoSESInput` of ses.go. -/
def messagetoSESInput {σ : Type} (m : Message σ) : ses.SendEmailInput :=
  let charset := "UTF-8"
  let i : ses.SendEmailInput :=
    { Source := some m.From
      Destination := some
        { ToAddresses := some (slicetoPtrSlice m.To), CcAddresses := none,
          BccAddresses := none }
      Message := some { Body := some { Html := none, Text := none }, Subject := none } }
  let i := if m.Cc.length > 0 then i.setCcAddresses (some (slicetoPtrSlice m.Cc)) else i
  let i := if m.Bcc.length > 0 then i.setBccAddresses (some (slicetoPtrSlice m.Bcc)) else i
  let i :=
    if m.Subject != "" then
      i.setSubject (some { Charset := some charset, Data := some m.Subject })
    else i
  let i :=
    if m.TextBody != "" then
      i.setBodyText (some { Charset := some charset, Data := some m.TextBody })
    else i
  let i :=
    if m.HtmlBody != "" then
      i.setBodyHtml (some { Charset := some charset, Data := some m.HtmlBody })
    else i
  i

/-- The struct `sesSender`, which embeds a provider client of type `α` (the embedded
interface holds a client; a nil one is outside the model). -/
structure sesSender (α : Type) where
  SESApi : α
  deriving DecidableEq, Repr

/-- The method set of the interface `SESApi` for provider clients of type `α`.
`SendEmail` receives the client, the request and the state of the world, and returns its
output and error with the world as it leaves it.  The pointers of a request built by
`messagetoSESInput` lead to the strings of the message (`Source: &m.From`, `&s[i]`,
`Data: &m.Subject` and so on), so the message is part of the state that the call
receives and hands back; of the message, a call can reach no more than these strings. -/
structure SESApiImpl (α σ W : Type) where
  SendEmail : α → ses.SendEmailInput → Message σ → W →
    (Option ses.SendEmailOutput × Option GoError) × Message σ × W

/-- A provider client instrumented to record every call it receives (the client and
the request), as the generated mocks of the tests do. -/
def SESApiImpl.recording {α σ W : Type} (api : SESApiImpl α σ W) :
    SESApiImpl α σ (W × List (α × ses.SendEmailInput)) where
  SendEmail := fun a i mem st =>
    let r := api.SendEmail a i mem st.1
    (r.1, r.2.1, (r.2.2, st.2 ++ [(a, i)]))

/-- The method `(*sesSender).Send` of ses.go. -/
def sesSender.Send {α σ W : Type} (api : SESApiImpl α σ W) (s : sesSender α)
    (m : Message σ) (w : W) : Option GoError × Message σ × W :=
  let i := messagetoSESInput m
  let r := api.SendEmail s.SESApi i m w
  let err := r.1.2
  if err ≠ none then (err, r.2.1, r.2.2) else (none, r.2.1, r.2.2)

/-- The function `NewSESSender` of ses.go. -/
def NewSESSender {α : Type} (s : α) : sesSender α := { SESApi := s }

/-- The method set of `Sender` that `sesSender` provides, over the provider clients
described by `api`. -/
def sesSenderImpl {α W : Type} (api : SESApiImpl α (sesSender α) W) :
    SenderImpl (sesSender α) W where
  Send := fun s m w => sesSender.Send api s m w

/-- A provider client for examples, like the mock of the tests: it returns no output
and no error, leaves the message alone and counts its calls in the world. -/
def stubApi : SESApiImpl Unit (sesSender Unit) Nat where
  SendEmail := fun _ _ mem n => ((none, none), mem, n + 1)

/-- A provider client for examples that stores another string through the pointer
`Source` of the request it receives, which is `&m.From`. -/
def overwritingApi : SESApiImpl Unit (sesSender Unit) Nat where
  SendEmail := fun _ _ mem n => ((none, none), { mem with From := "other@email.com" }, n + 1)

/-- The message of the test case "minimal" of `TestMessageSend`. -/
def sesMinimalMessage : Message (sesSender Unit) :=
  NewWithSender (some (NewSESSender ()))
    [From "from@email.com", To ["to1@email.com", "to2@email.com"]]

/-- The message of the test case "everything" of `TestMessageSend`. -/
def sesEverythingMessage : Message (sesSender Unit) :=
  NewWithSender (some (NewSESSender ()))
    [From "from@email.com", To ["to1@email.com", "to2@email.com"],
      Cc ["cc1@email.com", "cc2@email.com"], Bcc ["bcc1@email.com", "bcc2@email.com"],
      Subject "subject", TextBody "text body", HtmlBody "html body"]

/-! ## Compiling the pattern (`regexp.MustCompile`) -/

/-- A compiled expression (`*regexp.Regexp`): the expression between the anchors, and
whether `^` and `$` anchor it at the two ends of the text. -/
structure Regexp where
  anchoredStart : Bool
  expr : Regex
  anchoredEnd : Bool

namespace Regex

/-- Any rune. -/
def anyRune : Regex := charClass (fun _ => true)

/-- The operator `.`: any rune but the line feed. -/
def anyNotNL : Regex := charClass (fun c => c != Char.ofNat 10)

/-- The predicate of a character class given by its ranges. -/
def inRanges (rs : List (Char × Char)) (c : Char) : Bool :=
  rs.any fun r => r.1 ≤ c && c ≤ r.2

/-- The concatenation of the pieces of one alternative. -/
def concatAll : List Regex → Regex
  | [] => emptyMatch
  | [a] => a
  | a :: b :: rest => concat a (concatAll (b :: rest))

/-- The alternation of the alternatives of one group. -/
def alternateAll : List Regex → Regex
  | [] => noMatch
  | [a] => a
  | a :: b :: rest => alternate a (alternateAll (b :: rest))

/-- The counted repetition `a{n,m}` with `n ≤ m`: `n` copies, then `a{0,m-n}`. -/
def repeatRange (a : Regex) : Nat → Nat → Regex
  | 0, m => repeatUpTo a m
  | n + 1, m => concat a (repeatRange a n (m - 1))

/-- The counted repetition `a{n,}`: `n` copies, then `a*`. -/
def repeatAtLeast (a : Regex) : Nat → Regex
  | 0 => star a
  | n + 1 => concat a (repeatAtLeast a n)

end Regex

/-- The method `(*Regexp).MatchString`: an end without anchor may be preceded or
followed by any runes. -/
def Regexp.MatchString (re : Regexp) (s : String) : Bool :=
  let e₁ :=
    if re.anchoredStart then re.expr
    else Regex.concat (Regex.star Regex.anyRune) re.expr
  let e₂ := if re.anchoredEnd then e₁ else Regex.concat e₁ (Regex.star Regex.anyRune)
  e₂.matchRunes s.toList

namespace Syntax

/-- A group being read: its finished alternatives and the pieces of the alternative
being read, the newest first in both. -/
structure Frame where
  alts : List Regex
  seq : List Regex

/-- The expression of a group once it is closed. -/
def Frame.build (f : Frame) : Regex :=
  Regex.alternateAll ((Regex.concatAll f.seq.reverse :: f.alts).reverse)

/-- What the reader has just read, as far as a repetition operator is concerned:
nothing that can be repeated, a piece made of a single rune, class or dot, or a
group. -/
inductive Last where
  | nothing : Last
  | single : Last
  | group : Last
  deriving DecidableEq

/-- What the reader is in the middle of. -/
inductive Mode where
  | start : Mode
  | normal (last : Last) : Mode
  | escape : Mode
  | groupOpen : Mode
  | groupQuest : Mode
  | cls (items : List (Char × Char)) (pending : Option Char) : Mode
  | clsDash (items : List (Char × Char)) (lo : Char) : Mode
  | clsEscape (items : List (Char × Char)) : Mode
  | repMin (digits : Option Nat) : Mode
  | repMax (min : Nat) (digits : Option Nat) : Mode
  | finished : Mode

/-- The state of the reader: the mode, whether `^` was read, and the open groups, the
innermost first (the last one is the whole expression). -/
structure State where
  mode : Mode
  anchoredStart : Bool
  stack : List Frame

/-- The state before the first rune. -/
def State.init : State := { mode := .start, anchoredStart := false, stack := [⟨[], []⟩] }

/-- A new piece at the end of the alternative being read. -/
def pushAtom (st : State) (a : Regex) : Option State :=
  match st.stack with
  | f :: rest =>
    some { st with mode := .normal .single, stack := { f with seq := a :: f.seq } :: rest }
  | [] => none

/-- A repetition operator applied to the last piece. -/
def applyRepeat (st : State) (op : Regex → Regex) : Option State :=
  match st.stack with
  | ⟨alts, a :: seq⟩ :: rest =>
    some { st with mode := .normal .nothing, stack := ⟨alts, op a :: seq⟩ :: rest }
  | _ => none

/-- The start of a group. -/
def openGroup (st : State) : State :=
  { st with mode := .normal .nothing, stack := ⟨[], []⟩ :: st.stack }

/-- The end of a group: it becomes a piece of the group around it. -/
def closeGroup (st : State) : Option State :=
  match st.stack with
  | f :: g :: rest =>
    some { st with
      mode := .normal .group
      stack := { g with seq := f.build :: g.seq } :: rest }
  | _ => none

/-- The operator `|`: the alternative being read is finished. -/
def nextAlternative (st : State) : Option State :=
  match st.stack with
  | f :: rest =>
    some { st with
      mode := .normal .nothing
      stack := ⟨Regex.concatAll f.seq.reverse :: f.alts, []⟩ :: rest }
  | [] => none

/-- Whether an escaped rune stands for itself: ASCII, neither letter nor digit. -/
def isPunct (c : Char) : Bool := decide (c.toNat < 128) && !alnumClass c

/-- The ranges read so far, with the single rune that is pending. -/
def flush (items : List (Char × Char)) (pending : Option Char) : List (Char × Char) :=
  match pending with
  | some p => items ++ [(p, p)]
  | none => items

/-- One rune outside a class, an escape and a counted repetition.  The operators `*`,
`+` and `?` need a piece or a group before them, a counted repetition a piece of a
single rune. -/
def stepNormal (st : State) (last : Last) (c : Char) : Option State :=
  if c = Char.ofNat 92 then some { st with mode := .escape }
  else if c = '(' then some { st with mode := .groupOpen }
  else if c = ')' then closeGroup st
  else if c = '|' then nextAlternative st
  else if c = '[' then some { st with mode := .cls [] none }
  else if c = '*' then (if last ≠ .nothing then applyRepeat st Regex.star else none)
  else if c = '+' then (if last ≠ .nothing then applyRepeat st Regex.plus else none)
  else if c = '?' then (if last ≠ .nothing then applyRepeat st Regex.quest else none)
  else if c = Char.ofNat 123 then
    (if last = .single then some { st with mode := .repMin none } else none)
  else if c = '.' then pushAtom st Regex.anyNotNL
  else if c = '$' then
    (if st.stack.length = 1 then some { st with mode := .finished } else none)
  else if c = '^' ∨ c = ']' ∨ c = Char.ofNat 125 then none
  else pushAtom st (Regex.literal c)

/-- The digit that a rune stands for. -/
def digit? (c : Char) : Option Nat :=
  if '0' ≤ c ∧ c ≤ '9' then some (c.toNat - 48) else none

/-- The number read so far with one more digit; a number does not go on after a
leading zero. -/
def addDigit (digits : Option Nat) (d : Nat) : Option Nat :=
  match digits with
  | none => some d
  | some 0 => none
  | some n => some (n * 10 + d)

/-- One rune of the pattern. -/
def step (st : State) (c : Char) : Option State :=
  match st.mode with
  | .start =>
    if c = '^' then some { st with mode := .normal .nothing, anchoredStart := true }
    else stepNormal st .nothing c
  | .normal last => stepNormal st last c
  | .escape => if isPunct c then pushAtom st (Regex.literal c) else none
  | .groupOpen =>
    if c = '?' then some { st with mode := .groupQuest }
    else stepNormal (openGroup st) .nothing c
  | .groupQuest => if c = ':' then some (openGroup st) else none
  | .cls items pending =>
    if c = ']' then
      (if items.isEmpty && pending.isNone then none
       else pushAtom st (Regex.charClass (Regex.inRanges (flush items pending))))
    else if c = Char.ofNat 92 then some { st with mode := .clsEscape (flush items pending) }
    else if c = '[' then none
    else if c = '^' ∧ items.isEmpty ∧ pending.isNone then none
    else if c = '-' then
      match pending with
      | some lo => some { st with mode := .clsDash items lo }
      | none => some { st with mode := .cls items (some c) }
    else some { st with mode := .cls (flush items pending) (some c) }
  | .clsDash items lo =>
    if c = ']' then
      pushAtom st (Regex.charClass (Regex.inRanges (items ++ [(lo, lo), ('-', '-')])))
    else if c = Char.ofNat 92 ∨ c = '[' then none
    else if lo ≤ c then some { st with mode := .cls (items ++ [(lo, c)]) none }
    else none
  | .clsEscape items =>
    if isPunct c then some { st with mode := .cls items (some c) } else none
  | .repMin digits =>
    match digit? c with
    | some d => (addDigit digits d).map fun n => { st with mode := .repMin (some n) }
    | none =>
      match digits with
      | none => none
      | some n =>
        if c = ',' then some { st with mode := .repMax n none }
        else if c = Char.ofNat 125 ∧ n ≤ 1000 then
          applyRepeat st fun a => Regex.repeatRange a n n
        else none
  | .repMax n digits =>
    match digit? c with
    | some d => (addDigit digits d).map fun k => { st with mode := .repMax n (some k) }
    | none =>
      if c = Char.ofNat 125 ∧ n ≤ 1000 then
        match digits with
        | none => applyRepeat st fun a => Regex.repeatAtLeast a n
        | some k =>
          if n ≤ k ∧ k ≤ 1000 then applyRepeat st fun a => Regex.repeatRange a n k else none
      else none
  | .finished => none

/-- The runes of the pattern, one after the other. -/
def steps : State → List Char → Option State
  | st, [] => some st
  | st, c :: cs =>
    match step st c with
    | some st' => steps st' cs
    | none => none

/-- The compiled expression at the end of the pattern. -/
def finish (st : State) : Option Regexp :=
  match st.mode, st.stack with
  | .start, [f] => some ⟨st.anchoredStart, f.build, false⟩
  | .normal _, [f] => some ⟨st.anchoredStart, f.build, false⟩
  | .finished, [f] => some ⟨st.anchoredStart, f.build, true⟩
  | _, _ => none

end Syntax

/-- The function `regexp.Compile` on the fragment of the syntax read by `Syntax.step`.
A pattern outside the fragment is refused, and so is a pattern of more than 256 runes,
which keeps an accepted pattern within the bounds that the library puts on the size and
the nesting depth of an expression. -/
def Compile (pattern : String) : Option Regexp :=
  if pattern.length > 256 then none
  else
    match Syntax.steps Syntax.State.init pattern.toList with
    | some st => Syntax.finish st
    | none => none

/-- The function `regexp.MustCompile`: it panics when the pattern does not compile. -/
def MustCompile (pattern : String) : Result Regexp :=
  match Compile pattern with
  | some re => .ret re
  | none => .panic

/-- The pattern of `emailValid`. -/
def emailPattern : String :=
  "^[a-zA-Z0-9.!#$%&\x27*+/=?^_\x60\x7b|\x7d~-]+@[a-zA-Z0-9]" ++
  "(?:[a-zA-Z0-9-]\x7b0,61\x7d[a-zA-Z0-9])?" ++
  "(?:\\.[a-zA-Z0-9](?:[a-zA-Z0-9-]\x7b0,61\x7d[a-zA-Z0-9])?)*$"

/-- The ranges of `[a-zA-Z0-9]` in the order of the pattern. -/
def alnumRanges : List (Char × Char) := [('a', 'z'), ('A', 'Z'), ('0', '9')]

/-- The ranges of `[a-zA-Z0-9-]` in the order of the pattern. -/
def labelRanges : List (Char × Char) := [('a', 'z'), ('A', 'Z'), ('0', '9'), ('-', '-')]

/-- The ranges of the class of the local part in the order of the pattern. -/
def localRanges : List (Char × Char) :=
  [('a', 'z'), ('A', 'Z'), ('0', '9'), ('.', '.'), ('!', '!'), ('#', '#'), ('$', '$'),
    ('%', '%'), ('&', '&'), (Char.ofNat 39, Char.ofNat 39), ('*', '*'), ('+', '+'),
    ('/', '/'), ('=', '='), ('?', '?'), ('^', '^'), ('_', '_'),
    (Char.ofNat 96, Char.ofNat 96), (Char.ofNat 123, Char.ofNat 123), ('|', '|'),
    (Char.ofNat 125, Char.ofNat 125), ('~', '~'), ('-', '-')]

/-- The label group as the reader builds it. -/
def parsedLabelTail : Regex :=
  .quest (.concat (.repeatUpTo (.charClass (Regex.inRanges labelRanges)) 61)
    (.charClass (Regex.inRanges alnumRanges)))

/-- The expression that the reader builds from `emailPattern`. -/
def parsedEmailRegex : Regex :=
  .concat (.plus (.charClass (Regex.inRanges localRanges)))
    (.concat (.literal '@')
      (.concat (.charClass (Regex.inRanges alnumRanges))
        (.concat parsedLabelTail
          (.star (.concat (.literal '.')
            (.concat (.charClass (Regex.inRanges alnumRanges)) parsedLabelTail))))))

/-- The function `emailValid` of email.go with the compilation that it performs on
every call: the call panics when the pattern does not compile. -/
def emailValidRun (e : String) : Result Bool :=
  match MustCompile emailPattern with
  | .ret re => .ret (re.MatchString e)
  | .panic => .panic

/-- The loop `for _, t := range m.To` of `validateMessage`, with the outcome of every
call of `emailValid`. -/
def validateToRun : List String → Result (Option GoError)
  | [] => .ret none
  | t :: ts =>
    match emailValidRun t with
    | .ret valid =>
      if !valid then .ret (some (Errorf "invalid to email")) else validateToRun ts
    | .panic => .panic

/-- The function `validateMessage` of email.go as a call: it ends by a return or by a
panic, and a return gives the error together with the message behind the pointer and
the world as the call leaves them. -/
def validateMessageRun {σ W : Type} (m : Message σ) (w : W) :
    Result (Option GoError × Message σ × W) :=
  if m.sender.isNone then .ret (some (Errorf "sender is not defined"), m, w)
  else if m.From == "" then .ret (some (Errorf "from email is required"), m, w)
  else
    match emailValidRun m.From with
    | .panic => .panic
    | .ret valid =>
      if !valid then .ret (some (Errorf "invalid from email"), m, w)
      else if m.To.length < 1 then
        .ret (some (Errorf "at least one to email is required"), m, w)
      else
        match validateToRun m.To with
        | .panic => .panic
        | .ret err => .ret (err, m, w)

/-! ## Properties of the matcher -/

namespace Regex

theorem matchRunes_noMatch (s : List Char) : matchRunes noMatch s = false := by
  induction s with
  | nil => rfl
  | cons c cs ih => simpa [matchRunes, deriv] using ih

theorem matchRunes_emptyMatch (s : List Char) :
    matchRunes emptyMatch s = true ↔ s = [] := by
  cases s with
  | nil => simp [matchRunes, nullable]
  | cons c cs => simp [matchRunes, deriv, matchRunes_noMatch]

theorem matchRunes_charClass (p : Char → Bool) (s : List Char) :
    matchRunes (charClass p) s = true ↔ ∃ c, s = [c] ∧ p c = true := by
  cases s with
  | nil => simp [matchRunes, nullable]
  | cons c cs =>
    by_cases h : p c = true
    · simp only [matchRunes, deriv, h, if_true, matchRunes_emptyMatch]
      constructor
      · rintro rfl
        exact ⟨c, rfl, h⟩
      · rintro ⟨d, hd, _⟩
        simp only [List.cons.injEq] at hd
        exact hd.2
    · simp only [matchRunes, deriv, h, Bool.false_eq_true, if_false, matchRunes_noMatch]
      constructor
      · intro hf
        cases hf
      · rintro ⟨d, hd, hp⟩
        simp only [List.cons.injEq] at hd
        rw [← hd.1] at hp
        exact absurd hp h

theorem matchRunes_alternate (a b : Regex) (s : List Char) :
    matchRunes (alternate a b) s = (matchRunes a s || matchRunes b s) := by
  induction s generalizing a b with
  | nil => rfl
  | cons c cs ih => simp [matchRunes, deriv, ih]

theorem matchRunes_quest (a : Regex) (s : List Char) :
    matchRunes (quest a) s = true ↔ matchRunes a s = true ∨ s = [] := by
  simp [quest, matchRunes_alternate, matchRunes_emptyMatch]

theorem matchRunes_concat (a b : Regex) (s : List Char) :
    matchRunes (concat a b) s = true ↔
      ∃ x y, s = x ++ y ∧ matchRunes a x = true ∧ matchRunes b y = true := by
  induction s generalizing a b with
  | nil =>
    simp only [matchRunes, nullable, Bool.and_eq_true]
    constructor
    · rintro ⟨ha, hb⟩
      exact ⟨[], [], rfl, ha, hb⟩
    · rintro ⟨x, y, hxy, hx, hy⟩
      have hx0 : x = [] := by
        cases x with
        | nil => rfl
        | cons d x => simp at hxy
      have hy0 : y = [] := by
        subst hx0
        simpa using hxy.symm
      subst hx0
      subst hy0
      exact ⟨hx, hy⟩
  | cons c cs ih =>
    have key : (∃ x y, cs = x ++ y ∧ matchRunes (deriv c a) x = true ∧
        matchRunes b y = true) ∨ (nullable a = true ∧ matchRunes (deriv c b) cs = true) ↔
        ∃ x y, c :: cs = x ++ y ∧ matchRunes a x = true ∧ matchRunes b y = true := by
      constructor
      · rintro (⟨x, y, hxy, hx, hy⟩ | ⟨ha, hb⟩)
        · exact ⟨c :: x, y, by rw [hxy]; rfl, hx, hy⟩
        · exact ⟨[], c :: cs, rfl, ha, hb⟩
      · rintro ⟨x, y, hxy, hx, hy⟩
        cases x with
        | nil =>
          right
          simp only [List.nil_append] at hxy
          subst hxy
          exact ⟨hx, hy⟩
        | cons d x =>
          left
          simp only [List.cons_append, List.cons.injEq] at hxy
          obtain ⟨hcd, hcs⟩ := hxy
          subst hcd
          exact ⟨x, y, hcs, hx, hy⟩
    rw [← key]
    by_cases hn : nullable a = true
    · simp only [matchRunes, deriv, hn, if_true, matchRunes_alternate, Bool.or_eq_true, ih,
        true_and]
    · simp only [matchRunes, deriv, hn, Bool.false_eq_true, if_false, ih, false_and,
        or_false]

theorem matchRunes_star (a : Regex) (s : List Char) :
    matchRunes (star a) s = true ↔
      ∃ parts : List (List Char),
        s = parts.flatten ∧ ∀ x ∈ parts, x ≠ [] ∧ matchRunes a x = true := by
  generalize hlen : s.length = n
  induction n using Nat.strong_induction_on generalizing s with
  | _ n ih =>
    cases s with
    | nil =>
      simp only [matchRunes, nullable, true_iff]
      exact ⟨[], rfl, by simp⟩
    | cons c cs =>
      simp only [matchRunes, deriv, matchRunes_concat]
      constructor
      · rintro ⟨x, y, hxy, hx, hy⟩
        have hlt : y.length < n := by
          rw [← hlen, hxy]
          simp
          omega
        obtain ⟨parts, hp, hall⟩ := (ih y.length hlt y rfl).1 hy
        refine ⟨(c :: x) :: parts, ?_, ?_⟩
        · simp [hxy, hp]
        · intro z hz
          rcases List.mem_cons.1 hz with rfl | hz
          · exact ⟨by simp, hx⟩
          · exact hall z hz
      · rintro ⟨parts, hp, hall⟩
        cases parts with
        | nil => simp at hp
        | cons p ps =>
          obtain ⟨hpne, hpm⟩ := hall p (List.mem_cons_self _ _)
          cases p with
          | nil => exact absurd rfl hpne
          | cons d x =>
            simp only [List.flatten_cons, List.cons_append, List.cons.injEq] at hp
            obtain ⟨hcd, hcs⟩ := hp
            subst hcd
            have hlt : ps.flatten.length < n := by
              rw [← hlen, hcs]
              simp
              omega
            refine ⟨x, ps.flatten, hcs, hpm, ?_⟩
            exact (ih _ hlt ps.flatten rfl).2
              ⟨ps, rfl, fun z hz => hall z (List.mem_cons_of_mem _ hz)⟩

theorem matchRunes_star_charClass (p : Char → Bool) (s : List Char) :
    matchRunes (star (charClass p)) s = true ↔ ∀ c ∈ s, p c = true := by
  induction s with
  | nil => simp [matchRunes, nullable]
  | cons c cs ih =>
    simp only [matchRunes, deriv, List.mem_cons, forall_eq_or_imp]
    by_cases h : p c = true
    · simp only [h, if_true, true_and, ← ih, matchRunes_concat, matchRunes_emptyMatch]
      constructor
      · rintro ⟨x, y, hxy, hx, hy⟩
        subst hx
        simpa [hxy] using hy
      · intro hcs
        exact ⟨[], cs, rfl, rfl, hcs⟩
    · simp only [h, Bool.false_eq_true, if_false, false_and, iff_false,
        matchRunes_concat, matchRunes_noMatch]
      rintro ⟨x, y, _, hx, _⟩

theorem matchRunes_plus_charClass (p : Char → Bool) (s : List Char) :
    matchRunes (plus (charClass p)) s = true ↔ 1 ≤ s.length ∧ ∀ c ∈ s, p c = true := by
  simp only [plus, matchRunes_concat, matchRunes_charClass, matchRunes_star_charClass]
  constructor
  · rintro ⟨x, y, hxy, ⟨c, hx, hc⟩, hy⟩
    subst hx
    subst hxy
    refine ⟨by simp, ?_⟩
    intro d hd
    rcases List.mem_cons.1 hd with rfl | hd
    · exact hc
    · exact hy d hd
  · rintro ⟨hlen, hall⟩
    cases s with
    | nil => simp at hlen
    | cons c cs =>
      exact ⟨[c], cs, rfl, ⟨c, rfl, hall c (List.mem_cons_self _ _)⟩,
        fun d hd => hall d (List.mem_cons_of_mem _ hd)⟩

theorem matchRunes_repeatUpTo_charClass (p : Char → Bool) (n : Nat) (s : List Char) :
    matchRunes (repeatUpTo (charClass p) n) s = true ↔
      s.length ≤ n ∧ ∀ c ∈ s, p c = true := by
  induction n generalizing s with
  | zero =>
    simp only [repeatUpTo, matchRunes_emptyMatch, Nat.le_zero, List.length_eq_zero]
    constructor
    · rintro rfl
      exact ⟨rfl, by simp⟩
    · exact fun h => h.1
  | succ n ih =>
    simp only [repeatUpTo, matchRunes_quest, matchRunes_concat, matchRunes_charClass, ih]
    constructor
    · rintro (⟨x, y, hxy, ⟨c, hx, hc⟩, hy, hall⟩ | rfl)
      · subst hx
        subst hxy
        refine ⟨by simp; omega, ?_⟩
        intro d hd
        rcases List.mem_cons.1 hd with rfl | hd
        · exact hc
        · exact hall d hd
      · exact ⟨by simp, by simp⟩
    · rintro ⟨hlen, hall⟩
      cases s with
      | nil => exact Or.inr rfl
      | cons c cs =>
        left
        refine ⟨[c], cs, rfl, ⟨c, rfl, hall c (List.mem_cons_self _ _)⟩, ?_,
          fun d hd => hall d (List.mem_cons_of_mem _ hd)⟩
        simp at hlen
        omega

end Regex

/-! ## The label, the domain and the whole address -/

theorem alnumClass_iff (c : Char) :
    alnumClass c = true ↔ labelClass c = true ∧ c ≠ '-' := by
  constructor
  · intro h
    refine ⟨by simp only [labelClass, Bool.or_eq_true]; left; simpa [alnumClass] using h, ?_⟩
    rintro rfl
    revert h
    decide
  · rintro ⟨h, hne⟩
    simp only [labelClass, Bool.or_eq_true, beq_iff_eq] at h
    rcases h with h | h
    · simpa [alnumClass] using h
    · exact absurd h hne

theorem matchRunes_labelRegex (l : List Char) :
    labelRegex.matchRunes l = true ↔ SpecLabel l := by
  simp only [labelRegex, Regex.matchRunes_concat, Regex.matchRunes_quest,
    Regex.matchRunes_charClass, Regex.matchRunes_repeatUpTo_charClass, SpecLabel]
  constructor
  · rintro ⟨x, y, hxy, ⟨c, hx, hc⟩, (⟨u, v, huv, ⟨hulen, hu⟩, d, hv, hd⟩ | hy)⟩
    · subst hx hv huv hxy
      have hc2 := (alnumClass_iff c).1 hc
      have hd2 := (alnumClass_iff d).1 hd
      refine ⟨by simp, by simp; omega, ?_, ?_, ?_⟩
      · intro e he
        simp only [List.singleton_append, List.mem_cons, List.mem_append,
          List.mem_singleton, List.not_mem_nil, or_false] at he
        rcases he with rfl | he | rfl
        · exact hc2.1
        · exact hu e he
        · exact hd2.1
      · simpa using hc2.2
      · rw [← List.append_assoc, List.getLast?_concat]
        simpa using hd2.2
    · subst hx hy hxy
      have hc2 := (alnumClass_iff c).1 hc
      refine ⟨by simp, by simp, ?_, by simpa using hc2.2, by simpa using hc2.2⟩
      intro e he
      simp only [List.append_nil, List.mem_singleton] at he
      subst he
      exact hc2.1
  · rintro ⟨h1, h63, hall, hhead, hlast⟩
    cases l with
    | nil => simp at h1
    | cons c t =>
      have hc : alnumClass c = true :=
        (alnumClass_iff c).2 ⟨hall c (List.mem_cons_self _ _), by simpa using hhead⟩
      refine ⟨[c], t, rfl, ⟨c, rfl, hc⟩, ?_⟩
      rcases List.eq_nil_or_concat t with ht | ⟨u, d, ht⟩
      · exact Or.inr ht
      · left
        rw [List.concat_eq_append] at ht
        subst ht
        have hd : alnumClass d = true := by
          refine (alnumClass_iff d).2 ⟨hall d (by simp), ?_⟩
          rw [← List.cons_append, List.getLast?_concat] at hlast
          simpa using hlast
        refine ⟨u, [d], rfl, ⟨?_, ?_⟩, d, rfl, hd⟩
        · simp at h63
          omega
        · intro e he
          exact hall e (by simp [he])

theorem intercalate_cons (sep x : List Char) (xs : List (List Char)) :
    List.intercalate sep (x :: xs) = x ++ (xs.map (fun l => sep ++ l)).flatten := by
  induction xs generalizing x with
  | nil => simp [List.intercalate]
  | cons y ys ih =>
    have h := ih y
    simp only [List.intercalate] at h
    simp only [List.intercalate, List.intersperse, List.flatten_cons, List.map_cons, h,
      List.append_assoc]

theorem matchRunes_dotLabel (part : List Char) :
    (Regex.concat (Regex.literal '.') labelRegex).matchRunes part = true ↔
      ∃ l, part = '.' :: l ∧ SpecLabel l := by
  simp only [Regex.matchRunes_concat, Regex.literal, Regex.matchRunes_charClass,
    matchRunes_labelRegex, beq_iff_eq]
  constructor
  · rintro ⟨x, y, hxy, ⟨c, hx, hc⟩, hy⟩
    subst hx hc hxy
    exact ⟨y, rfl, hy⟩
  · rintro ⟨l, hl, hspec⟩
    exact ⟨['.'], l, hl, ⟨'.', rfl, rfl⟩, hspec⟩

theorem matchRunes_domain (d : List Char) :
    (Regex.concat labelRegex
      (Regex.star (Regex.concat (Regex.literal '.') labelRegex))).matchRunes d = true ↔
      SpecDomain d := by
  rw [Regex.matchRunes_concat]
  simp only [Regex.matchRunes_star, matchRunes_dotLabel, matchRunes_labelRegex, SpecDomain]
  constructor
  · rintro ⟨x, y, hxy, hx, parts, hy, hparts⟩
    refine ⟨x :: parts.map List.tail, by simp, ?_, ?_⟩
    · intro l hl
      rcases List.mem_cons.1 hl with rfl | hl
      · exact hx
      · obtain ⟨part, hpart, rfl⟩ := List.mem_map.1 hl
        obtain ⟨_, l, hpl, hspec⟩ := hparts part hpart
        subst hpl
        exact hspec
    · rw [intercalate_cons, hxy, hy, List.map_map]
      congr 2
      have hid : ∀ part ∈ parts, ((fun l => ['.'] ++ l) ∘ List.tail) part = id part := by
        intro part hpart
        obtain ⟨_, l, hpl, _⟩ := hparts part hpart
        subst hpl
        rfl
      rw [List.map_congr_left hid, List.map_id]
  · rintro ⟨labels, hne, hall, hd⟩
    cases labels with
    | nil => exact absurd rfl hne
    | cons x ls =>
      refine ⟨x, (ls.map (fun l => ['.'] ++ l)).flatten, ?_, hall x (List.mem_cons_self _ _),
        ls.map (fun l => ['.'] ++ l), rfl, ?_⟩
      · rw [hd, intercalate_cons]
      · intro part hpart
        obtain ⟨l, hl, rfl⟩ := List.mem_map.1 hpart
        exact ⟨by simp, l, rfl, hall l (List.mem_cons_of_mem _ hl)⟩

theorem emailValid_eq_true_iff (e : String) : emailValid e = true ↔ SpecEmailForm e := by
  unfold emailValid Regex.MatchString emailRegex
  rw [Regex.matchRunes_concat]
  simp only [Regex.matchRunes_plus_charClass]
  constructor
  · rintro ⟨x, y, hxy, hx, hy⟩
    rw [Regex.matchRunes_concat] at hy
    obtain ⟨u, v, huv, hu, hv⟩ := hy
    simp only [Regex.literal, Regex.matchRunes_charClass, beq_iff_eq] at hu
    obtain ⟨c, hu, hc⟩ := hu
    subst hu hc huv
    exact ⟨x, v, hxy, hx, (matchRunes_domain v).1 hv⟩
  · rintro ⟨loc, dom, he, hloc, hdom⟩
    refine ⟨loc, '@' :: dom, he, hloc, ?_⟩
    rw [Regex.matchRunes_concat]
    refine ⟨['@'], dom, rfl, ?_, (matchRunes_domain dom).2 hdom⟩
    simp [Regex.literal, Regex.matchRunes_charClass]

/-! ## Validation and sending -/

theorem validateTo_eq_none_iff (ts : List String) :
    validateTo ts = none ↔ ∀ t ∈ ts, emailValid t = true := by
  induction ts with
  | nil => simp [validateTo]
  | cons t ts ih =>
    cases h : emailValid t <;> simp [validateTo, h, ih]

theorem validateTo_eq_some (ts : List String) (e : GoError) (h : validateTo ts = some e) :
    e = Errorf "invalid to email" ∧ ∃ t ∈ ts, emailValid t = false := by
  induction ts with
  | nil => simp [validateTo] at h
  | cons t ts ih =>
    cases ht : emailValid t
    · simp only [validateTo, ht, Bool.not_false, if_true, Option.some.injEq] at h
      exact ⟨h.symm, t, List.mem_cons_self _ _, ht⟩
    · simp only [validateTo, ht, Bool.not_true, Bool.false_eq_true, if_false] at h
      obtain ⟨he, u, hu, hv⟩ := ih h
      exact ⟨he, u, List.mem_cons_of_mem _ hu, hv⟩

theorem validateTo_of_invalid (ts : List String) (h : ∃ t ∈ ts, emailValid t = false) :
    validateTo ts = some (Errorf "invalid to email") := by
  cases hv : validateTo ts with
  | none =>
    obtain ⟨t, ht, hf⟩ := h
    have := (validateTo_eq_none_iff ts).1 hv t ht
    rw [hf] at this
    cases this
  | some e => rw [(validateTo_eq_some ts e hv).1]

theorem emailValid_empty : emailValid "" = false := by decide

theorem validateMessage_eq_none_iff {σ : Type} (m : Message σ) :
    validateMessage m = none ↔
      m.sender ≠ none ∧ m.From ≠ "" ∧ emailValid m.From = true ∧ 1 ≤ m.To.length ∧
        ∀ t ∈ m.To, emailValid t = true := by
  unfold validateMessage
  cases hs : m.sender with
  | none => simp
  | some s =>
    by_cases hf : m.From = ""
    · simp [hf]
    · cases hv : emailValid m.From
      · simp [hf]
      · by_cases hl : m.To.length < 1
        · simp only [Option.isNone_some, Bool.false_eq_true, if_false, beq_iff_eq, hf,
            Bool.not_true, hl, if_true]
          constructor
          · intro h
            cases h
          · intro h
            omega
        · simp only [Option.isNone_some, Bool.false_eq_true, if_false, beq_iff_eq, hf,
            Bool.not_true, hl, validateTo_eq_none_iff]
          constructor
          · intro h
            exact ⟨by simp, by simpa using hf, trivial, by omega, h⟩
          · intro h
            exact h.2.2.2.2

theorem validateMessage_nil_sender {σ : Type} (m : Message σ) (h : m.sender = none) :
    validateMessage m = some (Errorf "sender is not defined") := by
  simp [validateMessage, h]

theorem validateMessage_empty_from {σ : Type} (m : Message σ) (hs : m.sender ≠ none)
    (hf : m.From = "") : validateMessage m = some (Errorf "from email is required") := by
  cases h : m.sender with
  | none => exact absurd h hs
  | some s => simp [validateMessage, h, hf]

theorem validateMessage_invalid_from {σ : Type} (m : Message σ) (hs : m.sender ≠ none)
    (hf : m.From ≠ "") (hv : emailValid m.From = false) :
    validateMessage m = some (Errorf "invalid from email") := by
  cases h : m.sender with
  | none => exact absurd h hs
  | some s => simp [validateMessage, h, hf, hv]

theorem validateMessage_no_to {σ : Type} (m : Message σ) (hs : m.sender ≠ none)
    (hf : m.From ≠ "") (hv : emailValid m.From = true) (hl : m.To.length < 1) :
    validateMessage m = some (Errorf "at least one to email is required") := by
  cases h : m.sender with
  | none => exact absurd h hs
  | some s =>
    have hl0 : m.To = [] := List.length_eq_zero.1 (by omega)
    simp [validateMessage, h, hf, hv, hl0]

theorem validateMessage_invalid_to {σ : Type} (m : Message σ) (hs : m.sender ≠ none)
    (hf : m.From ≠ "") (hv : emailValid m.From = true)
    (ht : ∃ t ∈ m.To, emailValid t = false) :
    validateMessage m = some (Errorf "invalid to email") := by
  cases h : m.sender with
  | none => exact absurd h hs
  | some s =>
    have hl : ¬ m.To.length < 1 := by
      obtain ⟨t, htm, _⟩ := ht
      have := List.length_pos_of_mem htm
      omega
    simp only [validateMessage, h, Option.isNone_some, Bool.false_eq_true, if_false,
      beq_iff_eq, hf, hv, Bool.not_true, hl]
    exact validateTo_of_invalid m.To ht

theorem validateMessage_text_mem {σ : Type} (m : Message σ) (e : GoError)
    (h : validateMessage m = some e) :
    e.text ∈ ["sender is not defined", "from email is required", "invalid from email",
      "at least one to email is required", "invalid to email"] := by
  unfold validateMessage at h
  split at h
  · cases h; simp [Errorf]
  · split at h
    · cases h; simp [Errorf]
    · split at h
      · cases h; simp [Errorf]
      · split at h
        · cases h; simp [Errorf]
        · rw [(validateTo_eq_some _ e h).1]
          simp [Errorf]

theorem Send_of_invalid {σ W : Type} (impl : SenderImpl σ W) (m : Message σ) (w : W)
    (e : GoError) (h : validateMessage m = some e) :
    Message.Send impl m w =
      .ret (some (Errorf ("message validation failed: " ++ e.text)), m, w) := by
  simp [Message.Send, h]

theorem Send_of_valid {σ W : Type} (impl : SenderImpl σ W) (m : Message σ) (w : W)
    (h : validateMessage m = none) :
    ∃ s, m.sender = some s ∧ Message.Send impl m w = .ret (impl.Send s m w) := by
  cases hs : m.sender with
  | none => exact absurd hs ((validateMessage_eq_none_iff m).1 h).1
  | some s => exact ⟨s, rfl, by simp [Message.Send, h, hs]⟩

theorem Send_recording_of_invalid {σ W : Type} (impl : SenderImpl σ W) (m : Message σ)
    (w : W) (e : GoError) (h : validateMessage m = some e)
    (log : List (σ × Message σ)) :
    Message.Send impl.recording m (w, log) =
      .ret (some (Errorf ("message validation failed: " ++ e.text)), m, (w, log)) :=
  Send_of_invalid impl.recording m (w, log) e h

theorem Send_recording_of_valid {σ W : Type} (impl : SenderImpl σ W) (m : Message σ)
    (w : W) (s : σ) (hs : m.sender = some s) (h : validateMessage m = none)
    (log : List (σ × Message σ)) :
    Message.Send impl.recording m (w, log) =
      .ret ((impl.Send s m w).1, (impl.Send s m w).2.1,
        ((impl.Send s m w).2.2, log ++ [(s, m)])) := by
  simp [Message.Send, h, hs, SenderImpl.recording]

/-! ## The claims on validation and sending -/

/-- C1: `validateMessage` returns no error exactly when the transport is set, `From` is
non-empty, `From` matches the email-syntax rule, `To` has at least one element and every
element of `To` matches the rule; otherwise it returns the message of the first of these
conditions that fails, in this order. -/
theorem validateMessage_first_failing {σ : Type} (m : Message σ) :
    (validateMessage m = none ↔
      m.sender ≠ none ∧ m.From ≠ "" ∧ emailValid m.From = true ∧ 1 ≤ m.To.length ∧
        ∀ t ∈ m.To, emailValid t = true) ∧
    (m.sender = none → validateMessage m = some (Errorf "sender is not defined")) ∧
    (m.sender ≠ none → m.From = "" →
      validateMessage m = some (Errorf "from email is required")) ∧
    (m.sender ≠ none → m.From ≠ "" → emailValid m.From = false →
      validateMessage m = some (Errorf "invalid from email")) ∧
    (m.sender ≠ none → m.From ≠ "" → emailValid m.From = true → m.To.length < 1 →
      validateMessage m = some (Errorf "at least one to email is required")) ∧
    (m.sender ≠ none → m.From ≠ "" → emailValid m.From = true → 1 ≤ m.To.length →
      (∃ t ∈ m.To, emailValid t = false) →
      validateMessage m = some (Errorf "invalid to email")) :=
  ⟨validateMessage_eq_none_iff m, validateMessage_nil_sender m,
    validateMessage_empty_from m, validateMessage_invalid_from m,
    validateMessage_no_to m,
    fun hs hf hv _ ht => validateMessage_invalid_to m hs hf hv ht⟩

/-- Witness of C1: with a transport, a valid sender and the recipients
"to1@email.com", "wrong", the fifth condition is the first to fail. -/
theorem validateMessage_first_failing_witness :
    validateMessage mixedRecipientsMessage = some (Errorf "invalid to email") :=
  (validateMessage_first_failing mixedRecipientsMessage).2.2.2.2.2
    (by decide) (by decide) (by decide) (by decide) ⟨"wrong", by decide, by decide⟩

/-- C2: when `validateMessage` returns no error, `Send` is one call of the transport's
`Send` on the message itself: it returns what that call returns, and a recording
transport records exactly that one call. -/
theorem Send_valid_invokes_transport_once {σ W : Type} (impl : SenderImpl σ W)
    (m : Message σ) (w : W) (h : validateMessage m = none) :
    ∃ s, m.sender = some s ∧
      Message.Send impl m w = .ret (impl.Send s m w) ∧
      ∀ log, Message.Send impl.recording m (w, log) =
        .ret ((impl.Send s m w).1, (impl.Send s m w).2.1,
          ((impl.Send s m w).2.2, log ++ [(s, m)])) := by
  obtain ⟨s, hs, hsend⟩ := Send_of_valid impl m w h
  exact ⟨s, hs, hsend, Send_recording_of_valid impl m w s hs h⟩

/-- Witness of C2: the message of the test case "minimum requirements met". -/
theorem Send_valid_invokes_transport_once_witness :
    ∃ s, minimalMessage.sender = some s ∧
      Message.Send stubImpl minimalMessage 0 = .ret (stubImpl.Send s minimalMessage 0) ∧
      ∀ log, Message.Send stubImpl.recording minimalMessage (0, log) =
        .ret ((stubImpl.Send s minimalMessage 0).1, (stubImpl.Send s minimalMessage 0).2.1,
          ((stubImpl.Send s minimalMessage 0).2.2, log ++ [(s, minimalMessage)])) :=
  Send_valid_invokes_transport_once stubImpl minimalMessage 0 (by decide)

/-- C3: when `validateMessage` returns the error `e`, `Send` returns an error whose text
is "message validation failed: " followed by the text of `e`, which is one of the five
validator messages, and the transport is not called: message and world are untouched and
a recording transport records nothing. -/
theorem Send_invalid_wraps_error {σ W : Type} (impl : SenderImpl σ W) (m : Message σ)
    (w : W) (e : GoError) (h : validateMessage m = some e) :
    Message.Send impl m w =
      .ret (some (Errorf ("message validation failed: " ++ e.text)), m, w) ∧
    e.text ∈ ["sender is not defined", "from email is required", "invalid from email",
      "at least one to email is required", "invalid to email"] ∧
    ∀ log, Message.Send impl.recording m (w, log) =
      .ret (some (Errorf ("message validation failed: " ++ e.text)), m, (w, log)) :=
  ⟨Send_of_invalid impl m w e h, validateMessage_text_mem m e h,
    Send_recording_of_invalid impl m w e h⟩

/-- Witness of C3: the message of the test case "to email invalid". -/
theorem Send_invalid_wraps_error_witness :
    Message.Send stubImpl wrongToMessage 0 =
      .ret (some (Errorf ("message validation failed: " ++ "invalid to email")),
        wrongToMessage, 0) ∧
    "invalid to email" ∈ ["sender is not defined", "from email is required",
      "invalid from email", "at least one to email is required", "invalid to email"] ∧
    ∀ log, Message.Send stubImpl.recording wrongToMessage (0, log) =
      .ret (some (Errorf ("message validation failed: " ++ "invalid to email")),
        wrongToMessage, (0, log)) :=
  Send_invalid_wraps_error stubImpl wrongToMessage 0 (Errorf "invalid to email")
    (by decide)

/-- C4: on a message whose transport is nil, whatever its other fields, `Send` returns
the error "message validation failed: sender is not defined" and calls no transport. -/
theorem Send_nil_sender {σ W : Type} (impl : SenderImpl σ W) (m : Message σ) (w : W)
    (h : m.sender = none) :
    Message.Send impl m w =
      .ret (some ⟨"message validation failed: sender is not defined"⟩, m, w) ∧
    ∀ log, Message.Send impl.recording m (w, log) =
      .ret (some ⟨"message validation failed: sender is not defined"⟩, m, (w, log)) :=
  ⟨Send_of_invalid impl m w _ (validateMessage_nil_sender m h),
    Send_recording_of_invalid impl m w _ (validateMessage_nil_sender m h)⟩

/-- Witness of C4: the zero-valued message of the test `TestSenderNotDefined`. -/
theorem Send_nil_sender_witness :
    Message.Send stubImpl zeroMessage 0 =
      .ret (some ⟨"message validation failed: sender is not defined"⟩, zeroMessage, 0) ∧
    ∀ log, Message.Send stubImpl.recording zeroMessage (0, log) =
      .ret (some ⟨"message validation failed: sender is not defined"⟩, zeroMessage,
        (0, log)) :=
  Send_nil_sender stubImpl zeroMessage 0 rfl

/-- C5: `emailValid` accepts a string exactly when the whole of it has the form
local@domain of the specification; a label of 63 characters is accepted, one of 64 is
rejected, and neither a leading blank nor a trailing line feed is tolerated. -/
theorem emailValid_iff_spec_form :
    (∀ e : String, emailValid e = true ↔ SpecEmailForm e) ∧
    emailValid (String.mk ('a' :: '@' :: List.replicate 63 'b')) = true ∧
    emailValid (String.mk ('a' :: '@' :: List.replicate 64 'b')) = false ∧
    emailValid (String.mk (' ' :: "a@b.c".toList)) = false ∧
    emailValid (String.mk ("a@b.c".toList ++ [Char.ofNat 10])) = false := by
  refine ⟨emailValid_eq_true_iff, ?_, ?_, ?_, ?_⟩
  · set_option maxRecDepth 100000 in decide
  · set_option maxRecDepth 100000 in decide
  · decide
  · decide

/-- Counterexample to C6 as stated: a message with a transport, a valid sender and the
recipients "to1@email.com", "wrong" has at least one valid recipient, yet `Send` returns
the validation error "invalid to email" and the transport records no call. -/
theorem Send_one_valid_recipient_counterexample :
    mixedRecipientsMessage.sender = some none ∧
    mixedRecipientsMessage.From ≠ "" ∧
    emailValid mixedRecipientsMessage.From = true ∧
    (∃ t ∈ mixedRecipientsMessage.To, emailValid t = true) ∧
    Message.Send stubImpl.recording mixedRecipientsMessage (0, []) =
      .ret (some ⟨"message validation failed: invalid to email"⟩,
        mixedRecipientsMessage, (0, [])) ∧
    Message.Send stubImpl mixedRecipientsMessage 0 ≠
      .ret (stubImpl.Send none mixedRecipientsMessage 0) := by
  refine ⟨by decide, by decide, by decide, ⟨"to1@email.com", by decide, by decide⟩,
    rfl, by decide⟩

/-- C6, amended: on a message with a transport, a non-empty valid sender, at least one
recipient and every recipient valid, `Send` is one call of the transport's `Send` on the
message: it returns what that call returns and a recording transport records exactly
that call. -/
theorem Send_all_valid_invokes_transport_once {σ W : Type} (impl : SenderImpl σ W)
    (m : Message σ) (w : W) (s : σ) (hs : m.sender = some s) (hf : m.From ≠ "")
    (hv : emailValid m.From = true) (hl : 1 ≤ m.To.length)
    (hall : ∀ t ∈ m.To, emailValid t = true) :
    Message.Send impl m w = .ret (impl.Send s m w) ∧
    ∀ log, Message.Send impl.recording m (w, log) =
      .ret ((impl.Send s m w).1, (impl.Send s m w).2.1,
        ((impl.Send s m w).2.2, log ++ [(s, m)])) := by
  have h : validateMessage m = none :=
    (validateMessage_eq_none_iff m).2 ⟨by simp [hs], hf, hv, hl, hall⟩
  obtain ⟨s', hs', hsend⟩ := Send_of_valid impl m w h
  have hss : s' = s := by
    rw [hs] at hs'
    exact (Option.some.inj hs').symm
  subst hss
  exact ⟨hsend, Send_recording_of_valid impl m w s' hs h⟩

/-- Witness of C6, amended: the message of the test case "minimum requirements met". -/
theorem Send_all_valid_invokes_transport_once_witness :
    Message.Send stubImpl minimalMessage 0 = .ret (stubImpl.Send none minimalMessage 0) ∧
    ∀ log, Message.Send stubImpl.recording minimalMessage (0, log) =
      .ret ((stubImpl.Send none minimalMessage 0).1,
        (stubImpl.Send none minimalMessage 0).2.1,
        ((stubImpl.Send none minimalMessage 0).2.2, log ++ [(none, minimalMessage)])) :=
  Send_all_valid_invokes_transport_once stubImpl minimalMessage 0 none rfl (by decide)
    (by decide) (by decide) (by decide)

/-- Counterexample to C7 as stated: the zero-valued message has an empty sender address
and the same message with `From` set to "wrong" has an invalid one, but both have no transport
and `Send` reports "sender is not defined"; and the message of the test case "no from
email" has a sender address that fails the syntax rule (it is empty), but `Send`
reports "from email is required", not "invalid from email". -/
theorem Send_bad_from_counterexample :
    (zeroMessage.From = "" ∧
      Message.Send stubImpl zeroMessage 0 =
        .ret (some ⟨"message validation failed: sender is not defined"⟩, zeroMessage, 0) ∧
      ¬ EndsWith "message validation failed: sender is not defined"
        "from email is required") ∧
    (emailValid (From "wrong" zeroMessage).From = false ∧
      Message.Send stubImpl (From "wrong" zeroMessage) 0 =
        .ret (some ⟨"message validation failed: sender is not defined"⟩,
          From "wrong" zeroMessage, 0) ∧
      ¬ EndsWith "message validation failed: sender is not defined"
        "invalid from email") ∧
    (emailValid noFromMessage.From = false ∧
      Message.Send stubImpl noFromMessage 0 =
        .ret (some ⟨"message validation failed: from email is required"⟩,
          noFromMessage, 0) ∧
      ¬ EndsWith "message validation failed: from email is required"
        "invalid from email") := by
  decide

/-- C7, amended: on a message with a transport, an empty sender address makes `Send`
return "message validation failed: from email is required", and a non-empty sender
address that fails the syntax rule makes it return "message validation failed: invalid
from email"; these texts end with the validator messages, and in both cases no transport
call is made. -/
theorem Send_bad_from_with_transport {σ W : Type} (impl : SenderImpl σ W) (m : Message σ)
    (w : W) (hs : m.sender ≠ none) :
    (m.From = "" →
      Message.Send impl m w =
        .ret (some ⟨"message validation failed: from email is required"⟩, m, w) ∧
      ∀ log, Message.Send impl.recording m (w, log) =
        .ret (some ⟨"message validation failed: from email is required"⟩, m, (w, log))) ∧
    (m.From ≠ "" → emailValid m.From = false →
      Message.Send impl m w =
        .ret (some ⟨"message validation failed: invalid from email"⟩, m, w) ∧
      ∀ log, Message.Send impl.recording m (w, log) =
        .ret (some ⟨"message validation failed: invalid from email"⟩, m, (w, log))) ∧
    EndsWith "message validation failed: from email is required" "from email is required" ∧
    EndsWith "message validation failed: invalid from email" "invalid from email" := by
  refine ⟨fun hf => ?_, fun hf hv => ?_, by decide, by decide⟩
  · have h := validateMessage_empty_from m hs hf
    exact ⟨Send_of_invalid impl m w _ h, Send_recording_of_invalid impl m w _ h⟩
  · have h := validateMessage_invalid_from m hs hf hv
    exact ⟨Send_of_invalid impl m w _ h, Send_recording_of_invalid impl m w _ h⟩

/-- Witness of C7, amended: the messages of the test cases "no from email" and "from
email invalid". -/
theorem Send_bad_from_with_transport_witness :
    (Message.Send stubImpl noFromMessage 0 =
        .ret (some ⟨"message validation failed: from email is required"⟩,
          noFromMessage, 0) ∧
      ∀ log, Message.Send stubImpl.recording noFromMessage (0, log) =
        .ret (some ⟨"message validation failed: from email is required"⟩,
          noFromMessage, (0, log))) ∧
    (Message.Send stubImpl wrongFromMessage 0 =
        .ret (some ⟨"message validation failed: invalid from email"⟩,
          wrongFromMessage, 0) ∧
      ∀ log, Message.Send stubImpl.recording wrongFromMessage (0, log) =
        .ret (some ⟨"message validation failed: invalid from email"⟩,
          wrongFromMessage, (0, log))) :=
  ⟨(Send_bad_from_with_transport stubImpl noFromMessage 0 (by decide)).1 (by decide),
    (Send_bad_from_with_transport stubImpl wrongFromMessage 0 (by decide)).2.1
      (by decide) (by decide)⟩

/-- Counterexample to C8 as stated: the zero-valued message has zero recipients but no
transport, and `Send` reports "sender is not defined"; the message with a transport,
the sender "wrong" and the recipient "wrong" has a recipient failing the syntax rule,
but `Send` reports "invalid from email". -/
theorem Send_bad_to_counterexample :
    (zeroMessage.To.length = 0 ∧
      Message.Send stubImpl zeroMessage 0 =
        .ret (some ⟨"message validation failed: sender is not defined"⟩, zeroMessage, 0) ∧
      ¬ EndsWith "message validation failed: sender is not defined"
        "at least one to email is required") ∧
    ((∃ t ∈ (To ["wrong"] wrongFromMessage).To, emailValid t = false) ∧
      Message.Send stubImpl (To ["wrong"] wrongFromMessage) 0 =
        .ret (some ⟨"message validation failed: invalid from email"⟩,
          To ["wrong"] wrongFromMessage, 0) ∧
      ¬ EndsWith "message validation failed: invalid from email" "invalid to email") := by
  refine ⟨by decide, ⟨"wrong", by decide, by decide⟩, by decide, by decide⟩

/-- C8, amended: on a message with a transport and a non-empty valid sender address,
zero recipients make `Send` return "message validation failed: at least one to email is
required", and any recipient failing the syntax rule makes it return "message validation
failed: invalid to email"; these texts end with the validator messages, and in both
cases no transport call is made. -/
theorem Send_bad_to_with_valid_from {σ W : Type} (impl : SenderImpl σ W) (m : Message σ)
    (w : W) (hs : m.sender ≠ none) (hf : m.From ≠ "") (hv : emailValid m.From = true) :
    (m.To.length = 0 →
      Message.Send impl m w =
        .ret (some ⟨"message validation failed: at least one to email is required"⟩,
          m, w) ∧
      ∀ log, Message.Send impl.recording m (w, log) =
        .ret (some ⟨"message validation failed: at least one to email is required"⟩,
          m, (w, log))) ∧
    ((∃ t ∈ m.To, emailValid t = false) →
      Message.Send impl m w =
        .ret (some ⟨"message validation failed: invalid to email"⟩, m, w) ∧
      ∀ log, Message.Send impl.recording m (w, log) =
        .ret (some ⟨"message validation failed: invalid to email"⟩, m, (w, log))) ∧
    EndsWith "message validation failed: at least one to email is required"
      "at least one to email is required" ∧
    EndsWith "message validation failed: invalid to email" "invalid to email" := by
  refine ⟨fun hl => ?_, fun ht => ?_, by decide, by decide⟩
  · have h := validateMessage_no_to m hs hf hv (by omega)
    exact ⟨Send_of_invalid impl m w _ h, Send_recording_of_invalid impl m w _ h⟩
  · have h := validateMessage_invalid_to m hs hf hv ht
    exact ⟨Send_of_invalid impl m w _ h, Send_recording_of_invalid impl m w _ h⟩

/-- Witness of C8, amended: the messages of the test cases "no to emails" and "to email
invalid". -/
theorem Send_bad_to_with_valid_from_witness :
    (Message.Send stubImpl noToMessage 0 =
        .ret (some ⟨"message validation failed: at least one to email is required"⟩,
          noToMessage, 0) ∧
      ∀ log, Message.Send stubImpl.recording noToMessage (0, log) =
        .ret (some ⟨"message validation failed: at least one to email is required"⟩,
          noToMessage, (0, log))) ∧
    (Message.Send stubImpl wrongToMessage 0 =
        .ret (some ⟨"message validation failed: invalid to email"⟩, wrongToMessage, 0) ∧
      ∀ log, Message.Send stubImpl.recording wrongToMessage (0, log) =
        .ret (some ⟨"message validation failed: invalid to email"⟩,
          wrongToMessage, (0, log))) :=
  ⟨(Send_bad_to_with_valid_from stubImpl noToMessage 0 (by decide) (by decide)
      (by decide)).1 (by decide),
    (Send_bad_to_with_valid_from stubImpl wrongToMessage 0 (by decide) (by decide)
      (by decide)).2.1 ⟨"wrong", by decide, by decide⟩⟩

/-! ## The claims on the builder -/

theorem applyOpts_eq_foldl {σ : Type} (m : Message σ)
    (opts : List (Message σ → Message σ)) :
    applyOpts m opts = opts.foldl (fun acc opt => opt acc) m := by
  induction opts generalizing m with
  | nil => rfl
  | cons o os ih => simp [applyOpts, ih]

theorem lastArg_cons_some {α : Type} (arg : OptCall → Option α) (zero a : α) (c : OptCall)
    (cs : List OptCall) (h : arg c = some a) :
    lastArg arg zero (c :: cs) = lastArg arg a cs := by
  unfold lastArg
  rw [List.filterMap_cons_some h]
  cases List.filterMap arg cs with
  | nil => rfl
  | cons y ys =>
    have hz : (y :: ys).getLast? = some ((y :: ys).getLast (by simp)) :=
      List.getLast?_eq_getLast _ _
    rw [List.getLast?_cons_cons, hz]
    rfl

theorem lastArg_cons_none {α : Type} (arg : OptCall → Option α) (zero : α) (c : OptCall)
    (cs : List OptCall) (h : arg c = none) :
    lastArg arg zero (c :: cs) = lastArg arg zero cs := by
  unfold lastArg
  rw [List.filterMap_cons_none h]

theorem applyOpts_field {σ α : Type} (fld : Message σ → α) (arg : OptCall → Option α)
    (hset : ∀ c a (m : Message σ), arg c = some a → fld (c.toOpt m) = a)
    (hkeep : ∀ c (m : Message σ), arg c = none → fld (c.toOpt m) = fld m)
    (m : Message σ) (calls : List OptCall) :
    fld (applyOpts m (calls.map OptCall.toOpt)) = lastArg arg (fld m) calls := by
  induction calls generalizing m with
  | nil => rfl
  | cons c cs ih =>
    simp only [List.map_cons, applyOpts]
    rw [ih]
    cases h : arg c with
    | none => rw [hkeep c m h, lastArg_cons_none arg _ c cs h]
    | some a => rw [hset c a m h, lastArg_cons_some arg _ a c cs h]

theorem applyOpts_sender {σ : Type} (m : Message σ) (calls : List OptCall) :
    (applyOpts m (calls.map OptCall.toOpt)).sender = m.sender := by
  induction calls generalizing m with
  | nil => rfl
  | cons c cs ih =>
    simp only [List.map_cons, applyOpts]
    rw [ih]
    cases c <;> rfl

/-- C9: `NewWithSender(s, opts...)` is the result of applying the options from left to
right to `Message{sender: s}`, with no validation and no failure; when the options are
calls of the seven option constructors, the transport is `s` and every other field holds
the argument of the last call for that field, or the zero value when there is none, so
that `To(a)` followed by `To(b)` leaves `To = b`. -/
theorem NewWithSender_last_write_wins {σ : Type} (s : Option σ) :
    (∀ opts : List (Message σ → Message σ),
      NewWithSender s opts =
        opts.foldl (fun m opt => opt m)
          { sender := s, From := "", To := [], Cc := [], Bcc := [], Subject := "",
            TextBody := "", HtmlBody := "" }) ∧
    (∀ calls : List OptCall,
      (NewWithSender s (calls.map OptCall.toOpt)).sender = s ∧
      (NewWithSender s (calls.map OptCall.toOpt)).From = lastArg OptCall.fromArg "" calls ∧
      (NewWithSender s (calls.map OptCall.toOpt)).To = lastArg OptCall.toArg [] calls ∧
      (NewWithSender s (calls.map OptCall.toOpt)).Cc = lastArg OptCall.ccArg [] calls ∧
      (NewWithSender s (calls.map OptCall.toOpt)).Bcc = lastArg OptCall.bccArg [] calls ∧
      (NewWithSender s (calls.map OptCall.toOpt)).Subject =
        lastArg OptCall.subjectArg "" calls ∧
      (NewWithSender s (calls.map OptCall.toOpt)).TextBody =
        lastArg OptCall.textBodyArg "" calls ∧
      (NewWithSender s (calls.map OptCall.toOpt)).HtmlBody =
        lastArg OptCall.htmlBodyArg "" calls) ∧
    (∀ a b : List String, (NewWithSender s [To a, To b]).To = b) ∧
    NewWithSender s [From "wrong", To [], Cc ["wrong"]] =
      { sender := s, From := "wrong", To := [], Cc := ["wrong"], Bcc := [], Subject := "",
        TextBody := "", HtmlBody := "" } := by
  refine ⟨fun opts => applyOpts_eq_foldl _ opts, fun calls => ?_, fun a b => rfl, rfl⟩
  unfold NewWithSender
  refine ⟨applyOpts_sender _ calls, ?_, ?_, ?_, ?_, ?_, ?_, ?_⟩
  · refine applyOpts_field (fun m => m.From) OptCall.fromArg ?_ ?_ _ calls
    · intro c a m h
      cases c <;> simp_all [OptCall.fromArg, OptCall.toOpt, From]
    · intro c m h
      cases c <;> first | rfl | simp [OptCall.fromArg] at h
  · refine applyOpts_field (fun m => m.To) OptCall.toArg ?_ ?_ _ calls
    · intro c a m h
      cases c <;> simp_all [OptCall.toArg, OptCall.toOpt, To]
    · intro c m h
      cases c <;> first | rfl | simp [OptCall.toArg] at h
  · refine applyOpts_field (fun m => m.Cc) OptCall.ccArg ?_ ?_ _ calls
    · intro c a m h
      cases c <;> simp_all [OptCall.ccArg, OptCall.toOpt, Cc]
    · intro c m h
      cases c <;> first | rfl | simp [OptCall.ccArg] at h
  · refine applyOpts_field (fun m => m.Bcc) OptCall.bccArg ?_ ?_ _ calls
    · intro c a m h
      cases c <;> simp_all [OptCall.bccArg, OptCall.toOpt, Bcc]
    · intro c m h
      cases c <;> first | rfl | simp [OptCall.bccArg] at h
  · refine applyOpts_field (fun m => m.Subject) OptCall.subjectArg ?_ ?_ _ calls
    · intro c a m h
      cases c <;> simp_all [OptCall.subjectArg, OptCall.toOpt, Subject]
    · intro c m h
      cases c <;> first | rfl | simp [OptCall.subjectArg] at h
  · refine applyOpts_field (fun m => m.TextBody) OptCall.textBodyArg ?_ ?_ _ calls
    · intro c a m h
      cases c <;> simp_all [OptCall.textBodyArg, OptCall.toOpt, TextBody]
    · intro c m h
      cases c <;> first | rfl | simp [OptCall.textBodyArg] at h
  · refine applyOpts_field (fun m => m.HtmlBody) OptCall.htmlBodyArg ?_ ?_ _ calls
    · intro c a m h
      cases c <;> simp_all [OptCall.htmlBodyArg, OptCall.toOpt, HtmlBody]
    · intro c m h
      cases c <;> first | rfl | simp [OptCall.htmlBodyArg] at h

/-- C10: each of the seven options `From`, `To`, `Cc`, `Bcc`, `Subject`, `TextBody`,
`HtmlBody`, applied to any message, sets its own field to its argument and leaves the
transport and the six other fields as they were. -/
theorem options_set_own_field_only {σ : Type} (m : Message σ) (frm subject tBody hBody : String)
    (to_ cc bcc : List String) :
    ((From frm m).From = frm ∧ (From frm m).sender = m.sender ∧ (From frm m).To = m.To ∧
      (From frm m).Cc = m.Cc ∧ (From frm m).Bcc = m.Bcc ∧
      (From frm m).Subject = m.Subject ∧ (From frm m).TextBody = m.TextBody ∧
      (From frm m).HtmlBody = m.HtmlBody) ∧
    ((To to_ m).To = to_ ∧ (To to_ m).sender = m.sender ∧ (To to_ m).From = m.From ∧
      (To to_ m).Cc = m.Cc ∧ (To to_ m).Bcc = m.Bcc ∧ (To to_ m).Subject = m.Subject ∧
      (To to_ m).TextBody = m.TextBody ∧ (To to_ m).HtmlBody = m.HtmlBody) ∧
    ((Cc cc m).Cc = cc ∧ (Cc cc m).sender = m.sender ∧ (Cc cc m).From = m.From ∧
      (Cc cc m).To = m.To ∧ (Cc cc m).Bcc = m.Bcc ∧ (Cc cc m).Subject = m.Subject ∧
      (Cc cc m).TextBody = m.TextBody ∧ (Cc cc m).HtmlBody = m.HtmlBody) ∧
    ((Bcc bcc m).Bcc = bcc ∧ (Bcc bcc m).sender = m.sender ∧ (Bcc bcc m).From = m.From ∧
      (Bcc bcc m).To = m.To ∧ (Bcc bcc m).Cc = m.Cc ∧ (Bcc bcc m).Subject = m.Subject ∧
      (Bcc bcc m).TextBody = m.TextBody ∧ (Bcc bcc m).HtmlBody = m.HtmlBody) ∧
    ((Subject subject m).Subject = subject ∧ (Subject subject m).sender = m.sender ∧
      (Subject subject m).From = m.From ∧ (Subject subject m).To = m.To ∧
      (Subject subject m).Cc = m.Cc ∧ (Subject subject m).Bcc = m.Bcc ∧
      (Subject subject m).TextBody = m.TextBody ∧ (Subject subject m).HtmlBody = m.HtmlBody) ∧
    ((TextBody tBody m).TextBody = tBody ∧ (TextBody tBody m).sender = m.sender ∧
      (TextBody tBody m).From = m.From ∧ (TextBody tBody m).To = m.To ∧
      (TextBody tBody m).Cc = m.Cc ∧ (TextBody tBody m).Bcc = m.Bcc ∧
      (TextBody tBody m).Subject = m.Subject ∧ (TextBody tBody m).HtmlBody = m.HtmlBody) ∧
    ((HtmlBody hBody m).HtmlBody = hBody ∧ (HtmlBody hBody m).sender = m.sender ∧
      (HtmlBody hBody m).From = m.From ∧ (HtmlBody hBody m).To = m.To ∧
      (HtmlBody hBody m).Cc = m.Cc ∧ (HtmlBody hBody m).Bcc = m.Bcc ∧
      (HtmlBody hBody m).Subject = m.Subject ∧ (HtmlBody hBody m).TextBody = m.TextBody) := by
  refine ⟨?_, ?_, ?_, ?_, ?_, ?_, ?_⟩ <;> exact ⟨rfl, rfl, rfl, rfl, rfl, rfl, rfl, rfl⟩

/-! ## The provider request -/

theorem slicetoPtrSlice_loop (s : List String) (k : Nat) (hk : k ≤ s.length) :
    (List.range k).foldl (fun result i => result.set i (some (s.getD i "")))
        (List.replicate s.length none) =
      (s.take k).map some ++ List.replicate (s.length - k) none := by
  induction k with
  | zero => simp
  | succ k ih =>
    rw [List.range_succ, List.foldl_append, ih (by omega)]
    simp only [List.foldl_cons, List.foldl_nil]
    apply List.ext_getElem?
    intro j
    have hlen : (List.take k s).length = k := by simp; omega
    simp only [List.getElem?_set, List.length_append, List.length_map,
      List.length_replicate, hlen]
    by_cases hj : k = j
    · subst hj
      have h1 : k < k + (s.length - k) := by omega
      simp only [h1, if_true]
      rw [List.getElem?_append_left (by simp; omega)]
      simp [List.getElem?_take, List.getD_eq_getElem?_getD]
      rw [List.getElem?_eq_getElem (by omega)]
      simp
    · simp only [hj, if_false]
      by_cases hlt : j < k
      · rw [List.getElem?_append_left (by simp; omega),
          List.getElem?_append_left (by simp; omega)]
        have hlt1 : j < k + 1 := by omega
        simp [List.getElem?_take, hlt, hlt1]
      · have hgt : k < j := by omega
        rw [List.getElem?_append_right (by simp; omega),
          List.getElem?_append_right (by simp; omega)]
        simp [List.getElem?_replicate]
        by_cases hjn : j < s.length
        · have a1 : j - k < s.length - k := by omega
          have a2 : j - (k + 1) < s.length - (k + 1) := by omega
          simp [a1, a2, Nat.min_eq_left (by omega : k ≤ s.length),
            Nat.min_eq_left (by omega : k + 1 ≤ s.length)]
        · have a1 : ¬ j - k < s.length - k := by omega
          have a2 : ¬ j - (k + 1) < s.length - (k + 1) := by omega
          simp [a1, a2, Nat.min_eq_left (by omega : k ≤ s.length),
            Nat.min_eq_left (by omega : k + 1 ≤ s.length)]

theorem slicetoPtrSlice_eq_map (s : List String) : slicetoPtrSlice s = s.map some := by
  unfold slicetoPtrSlice
  rw [slicetoPtrSlice_loop s s.length (Nat.le_refl _)]
  simp

theorem messagetoSESInput_eq {σ : Type} (m : Message σ) :
    messagetoSESInput m =
      { Source := some m.From
        Destination := some
          { ToAddresses := some (m.To.map some)
            CcAddresses := if m.Cc = [] then none else some (m.Cc.map some)
            BccAddresses := if m.Bcc = [] then none else some (m.Bcc.map some) }
        Message := some
          { Body := some
              { Html :=
                  if m.HtmlBody = "" then none
                  else some { Charset := some "UTF-8", Data := some m.HtmlBody }
                Text :=
                  if m.TextBody = "" then none
                  else some { Charset := some "UTF-8", Data := some m.TextBody } }
            Subject :=
              if m.Subject = "" then none
              else some { Charset := some "UTF-8", Data := some m.Subject } } } := by
  have hcc : (m.Cc.length > 0) = ¬ (m.Cc = []) := by
    cases m.Cc <;> simp
  have hbcc : (m.Bcc.length > 0) = ¬ (m.Bcc = []) := by
    cases m.Bcc <;> simp
  simp only [messagetoSESInput, slicetoPtrSlice_eq_map, hcc, hbcc, bne_iff_ne, ne_eq,
    ses.SendEmailInput.setCcAddresses, ses.SendEmailInput.setBccAddresses,
    ses.SendEmailInput.setSubject, ses.SendEmailInput.setBodyText,
    ses.SendEmailInput.setBodyHtml]
  by_cases h1 : m.Cc = [] <;> by_cases h2 : m.Bcc = [] <;> by_cases h3 : m.Subject = "" <;>
    by_cases h4 : m.TextBody = "" <;> by_cases h5 : m.HtmlBody = "" <;>
    simp [h1, h2, h3, h4, h5]

theorem sesSender_Send_eq {α σ W : Type} (api : SESApiImpl α σ W) (s : sesSender α)
    (m : Message σ) (w : W) :
    sesSender.Send api s m w =
      ((api.SendEmail s.SESApi (messagetoSESInput m) m w).1.2,
        (api.SendEmail s.SESApi (messagetoSESInput m) m w).2) := by
  unfold sesSender.Send
  by_cases h : (api.SendEmail s.SESApi (messagetoSESInput m) m w).1.2 = none
  · simp [h]
  · simp [h]

/-! ## The claims on the provider request and the default transport -/

/-- C11: the request built by `messagetoSESInput` has the source `m.From`; its
destination has a to-list that is always present, with the length and the elements of
`m.To` in order; its cc-list is present exactly when `m.Cc` is non-empty and then holds
the elements of `m.Cc` in order, and likewise its bcc-list for `m.Bcc`. -/
theorem messagetoSESInput_addresses {σ : Type} (m : Message σ) :
    (messagetoSESInput m).Source = some m.From ∧
    ∃ d tos, (messagetoSESInput m).Destination = some d ∧
      d.ToAddresses = some tos ∧ tos.length = m.To.length ∧ tos = m.To.map some ∧
      (d.CcAddresses.isSome = true ↔ m.Cc ≠ []) ∧
      (m.Cc ≠ [] → d.CcAddresses = some (m.Cc.map some)) ∧
      (d.BccAddresses.isSome = true ↔ m.Bcc ≠ []) ∧
      (m.Bcc ≠ [] → d.BccAddresses = some (m.Bcc.map some)) := by
  rw [messagetoSESInput_eq]
  refine ⟨rfl, _, m.To.map some, rfl, rfl, by simp, rfl, ?_, ?_, ?_, ?_⟩
  · by_cases h : m.Cc = [] <;> simp [h]
  · intro h
    simp [h]
  · by_cases h : m.Bcc = [] <;> simp [h]
  · intro h
    simp [h]

/-- Witness of C11: the request of the test case "minimal" of `TestMessageSend`, with
no cc-list, no bcc-list, no subject and an empty body. -/
theorem messagetoSESInput_addresses_witness :
    messagetoSESInput sesMinimalMessage =
      { Source := some "from@email.com"
        Destination := some
          { ToAddresses := some [some "to1@email.com", some "to2@email.com"]
            CcAddresses := none
            BccAddresses := none }
        Message := some { Body := some { Html := none, Text := none }, Subject := none } } ∧
    (messagetoSESInput sesMinimalMessage).Source = some sesMinimalMessage.From :=
  ⟨rfl, (messagetoSESInput_addresses sesMinimalMessage).1⟩

/-- C12: the request built by `messagetoSESInput` always has a message with a body
container, which is the empty one when both bodies are empty; its subject, its body text
and its body HTML are present exactly when `m.Subject`, `m.TextBody`, `m.HtmlBody` is
a non-empty string, and then carry that string as data and the character set "UTF-8". -/
theorem messagetoSESInput_contents {σ : Type} (m : Message σ) :
    ∃ msg body, (messagetoSESInput m).Message = some msg ∧ msg.Body = some body ∧
      (m.TextBody = "" → m.HtmlBody = "" → body = { Html := none, Text := none }) ∧
      (msg.Subject.isSome = true ↔ m.Subject ≠ "") ∧
      (m.Subject ≠ "" →
        msg.Subject = some { Charset := some "UTF-8", Data := some m.Subject }) ∧
      (body.Text.isSome = true ↔ m.TextBody ≠ "") ∧
      (m.TextBody ≠ "" →
        body.Text = some { Charset := some "UTF-8", Data := some m.TextBody }) ∧
      (body.Html.isSome = true ↔ m.HtmlBody ≠ "") ∧
      (m.HtmlBody ≠ "" →
        body.Html = some { Charset := some "UTF-8", Data := some m.HtmlBody }) := by
  rw [messagetoSESInput_eq]
  refine ⟨_, _, rfl, rfl, ?_, ?_, ?_, ?_, ?_, ?_, ?_⟩
  · intro h1 h2
    simp [h1, h2]
  · by_cases h : m.Subject = "" <;> simp [h]
  · intro h
    simp [h]
  · by_cases h : m.TextBody = "" <;> simp [h]
  · intro h
    simp [h]
  · by_cases h : m.HtmlBody = "" <;> simp [h]
  · intro h
    simp [h]

/-- Witness of C12: the request of the test case "everything" of `TestMessageSend`. -/
theorem messagetoSESInput_contents_witness :
    messagetoSESInput sesEverythingMessage =
      { Source := some "from@email.com"
        Destination := some
          { ToAddresses := some [some "to1@email.com", some "to2@email.com"]
            CcAddresses := some [some "cc1@email.com", some "cc2@email.com"]
            BccAddresses := some [some "bcc1@email.com", some "bcc2@email.com"] }
        Message := some
          { Body := some
              { Html := some { Charset := some "UTF-8", Data := some "html body" }
                Text := some { Charset := some "UTF-8", Data := some "text body" } }
            Subject := some { Charset := some "UTF-8", Data := some "subject" } } } ∧
    ∃ msg body, (messagetoSESInput sesEverythingMessage).Message = some msg ∧
      msg.Body = some body ∧
      msg.Subject = some { Charset := some "UTF-8", Data := some "subject" } := by
  refine ⟨rfl, ?_⟩
  obtain ⟨msg, body, h1, h2, _, _, h3, _⟩ := messagetoSESInput_contents sesEverythingMessage
  exact ⟨msg, body, h1, h2, h3 (by decide)⟩

/-- C13: `sesSender.Send(m)` is one call of `SendEmail` on the client, with the request
`messagetoSESInput(m)`: it returns the error of that call as it is (nil when the call
returns no error), leaves message and world as that call leaves them, and a recording
client records exactly that one call. -/
theorem sesSender_Send_calls_SendEmail_once {α σ W : Type} (api : SESApiImpl α σ W)
    (a : α) (m : Message σ) (w : W) :
    (sesSender.Send api (NewSESSender a) m w).1 =
      (api.SendEmail a (messagetoSESInput m) m w).1.2 ∧
    ((api.SendEmail a (messagetoSESInput m) m w).1.2 = none →
      (sesSender.Send api (NewSESSender a) m w).1 = none) ∧
    (sesSender.Send api (NewSESSender a) m w).2 =
      (api.SendEmail a (messagetoSESInput m) m w).2 ∧
    ∀ log, (sesSender.Send api.recording (NewSESSender a) m (w, log)).2.2 =
      ((api.SendEmail a (messagetoSESInput m) m w).2.2,
        log ++ [(a, messagetoSESInput m)]) := by
  refine ⟨?_, ?_, ?_, ?_⟩
  · rw [sesSender_Send_eq]
    rfl
  · intro h
    rw [sesSender_Send_eq]
    exact h
  · rw [sesSender_Send_eq]
    rfl
  · intro log
    rw [sesSender_Send_eq]
    rfl

/-- Witness of C13: the message of the test case "minimal" sent to a client that
returns no error; the call count goes from 0 to 1 and `Send` returns nil. -/
theorem sesSender_Send_calls_SendEmail_once_witness :
    (sesSender.Send stubApi.recording (NewSESSender ()) sesMinimalMessage (0, [])).2.2 =
      (1, [((), messagetoSESInput sesMinimalMessage)]) ∧
    (sesSender.Send stubApi (NewSESSender ()) sesMinimalMessage 0).1 = none :=
  ⟨(sesSender_Send_calls_SendEmail_once stubApi () sesMinimalMessage 0).2.2.2 [],
    (sesSender_Send_calls_SendEmail_once stubApi () sesMinimalMessage 0).2.1 rfl⟩

/-- Counterexample to C15 as stated: the message of the test case "minimal" passes
validation and is sent through `sesSender` over a client that stores "other@email.com"
through the pointer `Source` of the request, which is `&m.From`; after `Send` the field
`From` of the message is "other@email.com". -/
theorem Send_default_adapter_mutation_counterexample :
    validateMessage sesMinimalMessage = none ∧
    Message.Send (sesSenderImpl overwritingApi) sesMinimalMessage 0 =
      .ret (none, From "other@email.com" sesMinimalMessage, 1) ∧
    (From "other@email.com" sesMinimalMessage).From ≠ sesMinimalMessage.From := by
  decide

/-- C15, amended: through the default adapter `Send` itself changes no field of the
message.  When validation fails, message and world are after `Send` as before, whatever
the provider client; when the client's `SendEmail` leaves the strings that the request
points to as they are, the message is after `Send` as before, whatever the call
returns. -/
theorem Send_default_adapter_keeps_message {α W : Type}
    (api : SESApiImpl α (sesSender α) W) (m : Message (sesSender α)) (w : W) :
    (validateMessage m ≠ none →
      ∃ err, Message.Send (sesSenderImpl api) m w = .ret (some err, m, w)) ∧
    ((∀ a, (api.SendEmail a (messagetoSESInput m) m w).2.1 = m) →
      ∃ err w', Message.Send (sesSenderImpl api) m w = .ret (err, m, w')) := by
  constructor
  · intro h
    cases hv : validateMessage m with
    | none => exact absurd hv h
    | some e => exact ⟨_, Send_of_invalid _ m w e hv⟩
  · intro hkeep
    cases hv : validateMessage m with
    | some e => exact ⟨_, w, Send_of_invalid _ m w e hv⟩
    | none =>
      obtain ⟨s, _, hsend⟩ := Send_of_valid (sesSenderImpl api) m w hv
      refine ⟨(api.SendEmail s.SESApi (messagetoSESInput m) m w).1.2,
        (api.SendEmail s.SESApi (messagetoSESInput m) m w).2.2, ?_⟩
      rw [hsend]
      simp only [sesSenderImpl, sesSender_Send_eq]
      congr 1
      rw [Prod.mk.injEq]
      refine ⟨rfl, ?_⟩
      exact Prod.ext (hkeep s.SESApi) rfl

/-- Witness of C15, amended: the message of the test case "minimal" sent over a client
that returns no error and leaves the message alone. -/
theorem Send_default_adapter_keeps_message_witness :
    ∃ err w', Message.Send (sesSenderImpl stubApi) sesMinimalMessage 0 =
      .ret (err, sesMinimalMessage, w') :=
  (Send_default_adapter_keeps_message stubApi sesMinimalMessage 0).2 (fun _ => rfl)

theorem validateMessage_congr {σ τ : Type} (m₁ : Message σ) (m₂ : Message τ)
    (hs : m₁.sender.isNone = m₂.sender.isNone) (hf : m₁.From = m₂.From)
    (ht : m₁.To = m₂.To) : validateMessage m₁ = validateMessage m₂ := by
  unfold validateMessage
  rw [hs, hf, ht]

/-- C16: two messages that agree on whether the transport is nil, on `From` and on `To`
get the same result from `validateMessage`, whatever their `Cc`, `Bcc`, `Subject`,
`TextBody` and `HtmlBody`; so a message that passes validation still passes it with any
`Cc` and `Bcc`, and non-empty `Cc` and `Bcc` lists are placed element by element in the
request, as with `Cc = ["wrong"]` on the message of the test case "minimal". -/
theorem validateMessage_ignores_other_fields {σ τ : Type} (m₁ : Message σ)
    (m₂ : Message τ) :
    (m₁.sender.isNone = m₂.sender.isNone → m₁.From = m₂.From → m₁.To = m₂.To →
      validateMessage m₁ = validateMessage m₂) ∧
    (∀ cc bcc : List String, validateMessage m₁ = none →
      validateMessage (Cc cc (Bcc bcc m₁)) = none ∧
      ∃ d, (messagetoSESInput (Cc cc (Bcc bcc m₁))).Destination = some d ∧
        (cc ≠ [] → d.CcAddresses = some (cc.map some)) ∧
        (bcc ≠ [] → d.BccAddresses = some (bcc.map some))) ∧
    (validateMessage (Cc ["wrong"] sesMinimalMessage) = none ∧
      emailValid "wrong" = false ∧
      ∃ d, (messagetoSESInput (Cc ["wrong"] sesMinimalMessage)).Destination = some d ∧
        d.CcAddresses = some [some "wrong"]) := by
  refine ⟨validateMessage_congr m₁ m₂, fun cc bcc h => ⟨?_, ?_⟩, by decide, by decide,
    _, rfl, rfl⟩
  · rw [← h]
    exact validateMessage_congr _ _ rfl rfl rfl
  · rw [messagetoSESInput_eq]
    refine ⟨_, rfl, ?_, ?_⟩
    · intro hcc
      simp [Cc, Bcc, hcc]
    · intro hbcc
      simp [Cc, Bcc, hbcc]

/-- Witness of C16: the message of the test case "minimal" and the same message with
`Cc = ["wrong"]` get the same result from `validateMessage`. -/
theorem validateMessage_ignores_other_fields_witness :
    validateMessage sesMinimalMessage = validateMessage (Cc ["wrong"] sesMinimalMessage) :=
  (validateMessage_ignores_other_fields sesMinimalMessage
    (Cc ["wrong"] sesMinimalMessage)).1 rfl rfl rfl

/-! ## The characters of an accepted address -/

theorem char_le_iff_toNat (a b : Char) : a ≤ b ↔ a.toNat ≤ b.toNat := Iff.rfl

theorem localClass_ascii (c : Char) (h : localClass c = true) :
    32 < c.toNat ∧ c.toNat < 127 ∧ c ≠ '@' := by
  refine ⟨?_, ?_, ?_⟩
  case refine_3 =>
    rintro rfl
    revert h
    decide
  all_goals
    simp only [localClass, Bool.or_eq_true, Bool.and_eq_true, decide_eq_true_eq,
      beq_iff_eq, char_le_iff_toNat] at h
    have e1 : ('a' : Char).toNat = 97 := rfl
    have e2 : ('z' : Char).toNat = 122 := rfl
    have e3 : ('A' : Char).toNat = 65 := rfl
    have e4 : ('Z' : Char).toNat = 90 := rfl
    have e5 : ('0' : Char).toNat = 48 := rfl
    have e6 : ('9' : Char).toNat = 57 := rfl
    rw [e1, e2, e3, e4, e5, e6] at h
    rcases h with
      (((((((((((((((((((((⟨h1, h2⟩ | ⟨h1, h2⟩) | ⟨h1, h2⟩) | h) | h) | h) | h) | h) | h) | h) |
    h) | h) | h) | h) | h) | h) | h) | h) | h) | h) | h) | h) | h
    all_goals first | omega | (subst h; decide)

theorem labelClass_ascii (c : Char) (h : labelClass c = true) :
    32 < c.toNat ∧ c.toNat < 127 ∧ c ≠ '@' := by
  refine ⟨?_, ?_, ?_⟩
  case refine_3 =>
    rintro rfl
    revert h
    decide
  all_goals
    simp only [labelClass, Bool.or_eq_true, Bool.and_eq_true, decide_eq_true_eq,
      beq_iff_eq, char_le_iff_toNat] at h
    have e1 : ('a' : Char).toNat = 97 := rfl
    have e2 : ('z' : Char).toNat = 122 := rfl
    have e3 : ('A' : Char).toNat = 65 := rfl
    have e4 : ('Z' : Char).toNat = 90 := rfl
    have e5 : ('0' : Char).toNat = 48 := rfl
    have e6 : ('9' : Char).toNat = 57 := rfl
    rw [e1, e2, e3, e4, e5, e6] at h
    rcases h with ((⟨h1, h2⟩ | ⟨h1, h2⟩) | ⟨h1, h2⟩) | h
    all_goals first | omega | (subst h; decide)

theorem mem_intercalate_dot (labels : List (List Char)) (c : Char)
    (h : c ∈ List.intercalate ['.'] labels) : c = '.' ∨ ∃ l ∈ labels, c ∈ l := by
  cases labels with
  | nil => simp [List.intercalate] at h
  | cons x xs =>
    rw [intercalate_cons] at h
    rcases List.mem_append.1 h with hx | hxs
    · exact Or.inr ⟨x, List.mem_cons_self _ _, hx⟩
    · obtain ⟨part, hpart, hc⟩ := List.mem_flatten.1 hxs
      obtain ⟨l, hl, rfl⟩ := List.mem_map.1 hpart
      rcases List.mem_append.1 hc with hdot | hcl
      · exact Or.inl (by simpa using hdot)
      · exact Or.inr ⟨l, List.mem_cons_of_mem _ hl, hcl⟩

theorem specDomain_chars (dom : List Char) (h : SpecDomain dom) (c : Char) (hc : c ∈ dom) :
    labelClass c = true ∨ c = '.' := by
  obtain ⟨labels, _, hall, rfl⟩ := h
  rcases mem_intercalate_dot labels c hc with hdot | ⟨l, hl, hcl⟩
  · exact Or.inr hdot
  · exact Or.inl ((hall l hl).2.2.1 c hcl)

/-- C17: a string accepted by `emailValid` contains exactly one `@`, consists of
characters of the two classes, `@` and the dot, and every one of its characters is a
printable ASCII character other than the blank (code point above 32 and below 127), so
it has no whitespace, no control character and no character outside ASCII; the empty
string and every string without `@` are rejected. -/
theorem emailValid_accepts_only_ascii :
    (∀ e : String, emailValid e = true →
      e.toList.count '@' = 1 ∧
      (∀ c ∈ e.toList, localClass c = true ∨ labelClass c = true ∨ c = '@' ∨ c = '.') ∧
      (∀ c ∈ e.toList, 32 < c.toNat ∧ c.toNat < 127) ∧
      ' ' ∉ e.toList ∧ Char.ofNat 9 ∉ e.toList ∧ Char.ofNat 10 ∉ e.toList ∧
      Char.ofNat 13 ∉ e.toList) ∧
    emailValid "" = false ∧
    (∀ e : String, '@' ∉ e.toList → emailValid e = false) := by
  have hform : ∀ e : String, emailValid e = true →
      ∃ loc dom : List Char, e.toList = loc ++ '@' :: dom ∧
        (∀ c ∈ loc, localClass c = true) ∧ (∀ c ∈ dom, labelClass c = true ∨ c = '.') := by
    intro e he
    obtain ⟨loc, dom, hsplit, hloc, hdom⟩ := (emailValid_eq_true_iff e).1 he
    exact ⟨loc, dom, hsplit, hloc.2, specDomain_chars dom hdom⟩
  have hascii : ∀ e : String, emailValid e = true →
      ∀ c ∈ e.toList, 32 < c.toNat ∧ c.toNat < 127 := by
    intro e he c hc
    obtain ⟨loc, dom, hsplit, hloc, hdom⟩ := hform e he
    rw [hsplit] at hc
    rcases List.mem_append.1 hc with h | h
    · exact ⟨(localClass_ascii c (hloc c h)).1, (localClass_ascii c (hloc c h)).2.1⟩
    · rcases List.mem_cons.1 h with rfl | h
      · decide
      · rcases hdom c h with hl | rfl
        · exact ⟨(labelClass_ascii c hl).1, (labelClass_ascii c hl).2.1⟩
        · decide
  refine ⟨fun e he => ⟨?_, ?_, hascii e he, ?_, ?_, ?_, ?_⟩, by decide, ?_⟩
  · obtain ⟨loc, dom, hsplit, hloc, hdom⟩ := hform e he
    have h1 : loc.count '@' = 0 :=
      List.count_eq_zero.2 fun hin => (localClass_ascii _ (hloc _ hin)).2.2 rfl
    have h2 : dom.count '@' = 0 := by
      refine List.count_eq_zero.2 fun hin => ?_
      rcases hdom _ hin with hl | hdot
      · exact (labelClass_ascii _ hl).2.2 rfl
      · revert hdot
        decide
    rw [hsplit, List.count_append, List.count_cons_self, h1, h2]
  · intro c hc
    obtain ⟨loc, dom, hsplit, hloc, hdom⟩ := hform e he
    rw [hsplit] at hc
    rcases List.mem_append.1 hc with h | h
    · exact Or.inl (hloc c h)
    · rcases List.mem_cons.1 h with rfl | h
      · exact Or.inr (Or.inr (Or.inl rfl))
      · rcases hdom c h with hl | hdot
        · exact Or.inr (Or.inl hl)
        · exact Or.inr (Or.inr (Or.inr hdot))
  · intro hin
    have := hascii e he _ hin
    revert this
    decide
  · intro hin
    have := hascii e he _ hin
    revert this
    decide
  · intro hin
    have := hascii e he _ hin
    revert this
    decide
  · intro hin
    have := hascii e he _ hin
    revert this
    decide
  · intro e hno
    cases he : emailValid e with
    | false => rfl
    | true =>
      obtain ⟨loc, dom, hsplit, _, _⟩ := hform e he
      exact absurd (by rw [hsplit]; simp) hno

/-- Witness of C17: the sender address of the tests. -/
theorem emailValid_accepts_only_ascii_witness :
    "from@email.com".toList.count '@' = 1 ∧
    ∀ c ∈ "from@email.com".toList, 32 < c.toNat ∧ c.toNat < 127 :=
  ⟨(emailValid_accepts_only_ascii.1 "from@email.com" (by decide)).1,
    (emailValid_accepts_only_ascii.1 "from@email.com" (by decide)).2.2.1⟩

/-! ## End to end through the default transport -/

/-- C18: a message built by `NewWithSender(NewSESSender(a), ...)` from calls of the
option constructors and sent with `Send`: when `validateMessage` succeeds the client
receives exactly one call of `SendEmail`, with the request `messagetoSESInput(m)`, whose
source matches the email-syntax rule and whose to-list is present, non-empty and made
of addresses that match the rule; when it fails the client receives no call. -/
theorem Send_default_adapter_end_to_end {α W : Type} (api : SESApiImpl α (sesSender α) W)
    (a : α) (calls : List OptCall) (w : W) (log : List (α × ses.SendEmailInput))
    (m : Message (sesSender α))
    (hm : m = NewWithSender (some (NewSESSender a)) (calls.map OptCall.toOpt)) :
    (validateMessage m = none →
      (∃ err m', Message.Send (sesSenderImpl api.recording) m (w, log) =
        .ret (err, m', ((api.SendEmail a (messagetoSESInput m) m w).2.2,
          log ++ [(a, messagetoSESInput m)]))) ∧
      ∃ src d tos, (messagetoSESInput m).Source = some src ∧ emailValid src = true ∧
        (messagetoSESInput m).Destination = some d ∧ d.ToAddresses = some tos ∧
        tos ≠ [] ∧ ∀ p ∈ tos, ∃ t, p = some t ∧ emailValid t = true) ∧
    (validateMessage m ≠ none →
      ∃ err, Message.Send (sesSenderImpl api.recording) m (w, log) =
        .ret (some err, m, (w, log))) := by
  have hsender : m.sender = some (NewSESSender a) := by
    rw [hm]
    exact applyOpts_sender _ calls
  constructor
  · intro hv
    obtain ⟨_, _, hvalid, hlen, hall⟩ := (validateMessage_eq_none_iff m).1 hv
    constructor
    · obtain ⟨s, hs, hsend⟩ := Send_of_valid (sesSenderImpl api.recording) m (w, log) hv
      have hsa : s = NewSESSender a := by
        rw [hsender] at hs
        exact (Option.some.inj hs).symm
      subst hsa
      refine ⟨(api.SendEmail a (messagetoSESInput m) m w).1.2,
        (api.SendEmail a (messagetoSESInput m) m w).2.1, ?_⟩
      rw [hsend]
      simp only [sesSenderImpl, sesSender_Send_eq]
      rfl
    · rw [messagetoSESInput_eq]
      refine ⟨m.From, _, m.To.map some, rfl, hvalid, rfl, rfl, ?_, ?_⟩
      · intro hnil
        rw [List.map_eq_nil_iff] at hnil
        rw [hnil] at hlen
        simp at hlen
      · intro p hp
        obtain ⟨t, ht, rfl⟩ := List.mem_map.1 hp
        exact ⟨t, rfl, hall t ht⟩
  · intro h
    cases hv : validateMessage m with
    | none => exact absurd hv h
    | some e => exact ⟨_, Send_of_invalid _ m (w, log) e hv⟩

/-- Witness of C18: the message of the test case "minimal", for which the recording
client goes from no call to one call. -/
theorem Send_default_adapter_end_to_end_witness :
    ∃ err m', Message.Send (sesSenderImpl stubApi.recording) sesMinimalMessage (0, []) =
      .ret (err, m',
        ((stubApi.SendEmail () (messagetoSESInput sesMinimalMessage) sesMinimalMessage 0).2.2,
          [] ++ [((), messagetoSESInput sesMinimalMessage)])) :=
  ((Send_default_adapter_end_to_end stubApi ()
    [OptCall.From "from@email.com", OptCall.To ["to1@email.com", "to2@email.com"]] 0 []
    sesMinimalMessage rfl).1 (by decide)).1

/-! ## The validator as a call: compilation of the pattern, outcome and state -/

set_option maxRecDepth 100000 in
theorem Compile_emailPattern :
    Compile emailPattern = some ⟨true, parsedEmailRegex, true⟩ := rfl

theorem MustCompile_emailPattern :
    MustCompile emailPattern = .ret ⟨true, parsedEmailRegex, true⟩ := by
  unfold MustCompile
  rw [Compile_emailPattern]

theorem char_range_single (a c : Char) :
    (decide (a ≤ c) && decide (c ≤ a)) = (c == a) := by
  rw [Bool.eq_iff_iff]
  simp only [Bool.and_eq_true, decide_eq_true_eq, beq_iff_eq, char_le_iff_toNat]
  constructor
  · rintro ⟨h1, h2⟩
    exact Char.ext (UInt32.ext (Nat.le_antisymm h2 h1))
  · rintro rfl
    exact ⟨Nat.le_refl _, Nat.le_refl _⟩

theorem inRanges_alnumRanges : Regex.inRanges alnumRanges = alnumClass := by
  funext c
  simp only [Regex.inRanges, alnumRanges, List.any_cons, List.any_nil, Bool.or_false,
    alnumClass, Bool.or_assoc]

theorem inRanges_labelRanges : Regex.inRanges labelRanges = labelClass := by
  funext c
  simp only [Regex.inRanges, labelRanges, List.any_cons, List.any_nil, Bool.or_false,
    labelClass, Bool.or_assoc, char_range_single]

theorem inRanges_localRanges : Regex.inRanges localRanges = localClass := by
  funext c
  simp only [Regex.inRanges, localRanges, List.any_cons, List.any_nil, Bool.or_false,
    localClass, Bool.or_assoc, char_range_single]

theorem matchRunes_concat_congr (a b b' : Regex)
    (h : ∀ s, b.matchRunes s = b'.matchRunes s) (s : List Char) :
    (Regex.concat a b).matchRunes s = (Regex.concat a b').matchRunes s := by
  rw [Bool.eq_iff_iff, Regex.matchRunes_concat, Regex.matchRunes_concat]
  simp only [h]

theorem matchRunes_concat_assoc (a b c : Regex) (s : List Char) :
    (Regex.concat a (Regex.concat b c)).matchRunes s =
      (Regex.concat (Regex.concat a b) c).matchRunes s := by
  rw [Bool.eq_iff_iff]
  simp only [Regex.matchRunes_concat]
  constructor
  · rintro ⟨x, y, hs, hx, u, v, hy, hu, hv⟩
    exact ⟨x ++ u, v, by rw [hs, hy, List.append_assoc], ⟨x, u, rfl, hx, hu⟩, hv⟩
  · rintro ⟨y, v, hs, ⟨x, u, hy, hx, hu⟩, hv⟩
    exact ⟨x, u ++ v, by rw [hs, hy, List.append_assoc], hx, u, v, rfl, hu, hv⟩

theorem matchRunes_parsedEmailRegex (s : List Char) :
    parsedEmailRegex.matchRunes s = emailRegex.matchRunes s := by
  unfold parsedEmailRegex parsedLabelTail emailRegex labelRegex
  rw [inRanges_alnumRanges, inRanges_labelRanges, inRanges_localRanges]
  refine matchRunes_concat_congr _ _ _ (fun s₁ => ?_) s
  refine matchRunes_concat_congr _ _ _ (fun s₂ => ?_) s₁
  exact matchRunes_concat_assoc _ _ _ s₂

theorem emailValidRun_eq (e : String) : emailValidRun e = .ret (emailValid e) := by
  unfold emailValidRun
  rw [MustCompile_emailPattern]
  simp only [Regexp.MatchString, if_true, emailValid, Regex.MatchString]
  rw [matchRunes_parsedEmailRegex]

theorem validateToRun_eq (ts : List String) : validateToRun ts = .ret (validateTo ts) := by
  induction ts with
  | nil => rfl
  | cons t ts ih =>
    simp only [validateToRun, validateTo, emailValidRun_eq, ih]
    split <;> rfl

theorem validateMessageRun_eq {σ W : Type} (m : Message σ) (w : W) :
    validateMessageRun m w = .ret (validateMessage m, m, w) := by
  simp only [validateMessageRun, validateMessage, emailValidRun_eq, validateToRun_eq]
  repeat' split
  all_goals rfl

/-- C14: a call of `validateMessage` on any message, in any state of the world, returns;
it does not panic (the pattern of `emailValid` compiles), it leaves the message and the
world as they were, its result is no error or an error with one of the five fixed
messages, and the result is the same in every state of the world, so that two calls on
equal messages give the same result.  On the zero-valued message the result is "sender
is not defined". -/
theorem validateMessage_total_deterministic :
    (∃ re, MustCompile emailPattern = .ret re ∧
      ∀ e, emailValidRun e = .ret (re.MatchString e) ∧ re.MatchString e = emailValid e) ∧
    (∀ (σ W : Type) (m : Message σ) (w : W),
      ∃ r, validateMessageRun m w = .ret (r, m, w) ∧ r = validateMessage m ∧
        (r = none ∨
          ∃ e, r = some e ∧
            e.text ∈ ["sender is not defined", "from email is required",
              "invalid from email", "at least one to email is required",
              "invalid to email"])) ∧
    (∀ (σ W : Type) (m₁ m₂ : Message σ) (w₁ w₂ : W), m₁ = m₂ →
      ∃ r, validateMessageRun m₁ w₁ = .ret (r, m₁, w₁) ∧
        validateMessageRun m₂ w₂ = .ret (r, m₂, w₂)) ∧
    validateMessageRun zeroMessage (0 : Nat) =
      .ret (some (Errorf "sender is not defined"), zeroMessage, 0) := by
  refine ⟨⟨_, MustCompile_emailPattern, fun e => ?_⟩, fun σ W m w => ?_,
    fun σ W m₁ m₂ w₁ w₂ h => ?_, ?_⟩
  · constructor
    · unfold emailValidRun
      rw [MustCompile_emailPattern]
    · simp only [Regexp.MatchString, if_true, emailValid, Regex.MatchString]
      rw [matchRunes_parsedEmailRegex]
  · refine ⟨validateMessage m, validateMessageRun_eq m w, rfl, ?_⟩
    cases h : validateMessage m with
    | none => exact Or.inl rfl
    | some e => exact Or.inr ⟨e, rfl, validateMessage_text_mem m e h⟩
  · subst h
    exact ⟨validateMessage m₁, validateMessageRun_eq m₁ w₁, validateMessageRun_eq m₁ w₂⟩
  · rw [validateMessageRun_eq]
    rfl

/-- Witness of C14: the message of the test case "to email invalid", for which the call
compiles the pattern twice and returns "invalid to email". -/
theorem validateMessage_total_deterministic_witness :
    validateMessageRun wrongToMessage (0 : Nat) =
      .ret (some (Errorf "invalid to email"), wrongToMessage, 0) := by
  obtain ⟨r, hrun, hr, _⟩ := validateMessage_total_deterministic.2.1 _ _ wrongToMessage 0
  rw [hrun, hr]
  rfl

end Email
